import Mathlib

/-!
Shallow embedding of the noname-server lobby broker (a Durable-Object based
session/room broker and relay engine).  The definitions below are translated
from the source files:
  * `src/src/index.js`     — the final iteration (`LobbyDurableObject` with the
    alarm-driven liveness sweep); this is the authority for most claims.
  * `src/unnamed/part_000` — the hibernation/rehydration iteration, whose
    `createClientWrapper` implements reconstruct-if-absent session rehydration.

Modelling conventions:
  * JS `Map` objects keyed by `wsid` are modelled as insertion-ordered lists;
    `Map.get` is `List.find?`, `Map.delete` is a filter, in-place mutation of a
    registered client object is a wsid-keyed map over the list.
  * JS object references between records (`room.owner`, `client.room`,
    `client.owner`, `client._onconfig`) are modelled as ids: rooms get a stable
    `rid` assigned at creation (JS object identity), clients are referenced by
    their `wsid`.  A reference whose target is no longer registered is handled
    as a no-op branch; such states do not arise in normal operation because a
    room is destroyed in the same step its owner is unregistered.
  * Timestamps are `Nat` milliseconds; JS `now - t > d` agrees with truncated
    `Nat` subtraction on both sides of the comparison.
  * Sends and closes are recorded in an effect trace instead of being performed;
    a transport send failure (the `try/catch` around `ws.send`) is outside the
    model, matching the spec's treatment of send failures as asynchronous
    disconnects.
  * Of the event board only the expiry instants are modelled (`events` as a
    list of `utc` values); no claim under verification touches any other event
    field.
-/

namespace NonameLobby

/-- Websocket session id (`wsid`), a broker-generated decimal string. -/
abbrev Wsid := String

/-- JS truthiness of a nullable string field (`null`/`undefined`/`""` are falsy). -/
def truthyStr : Option String → Bool
  | some s => s ≠ ""
  | none => false

/-- `getNickname` from the source: strings are truncated to 12 characters,
any non-string value becomes the default placeholder. -/
def getNickname : Option String → String
  | some s => s.take 12
  | none => "无名玩家"

/-- The published room configuration fields inspected by the broker
(`config.gameStarted`, `config.observe`, `config.observeReady`). -/
structure GameConfig where
  gameStarted : Bool
  observe : Bool
  observeReady : Bool
deriving DecidableEq, Repr

instance : Inhabited GameConfig := ⟨⟨false, false, false⟩⟩

/-- One room record (`this.rooms` element).  `rid` models JS object identity;
`tmpNum` models the transient `_num` property set and deleted by
`getroomlist`. -/
structure Room where
  rid : Nat
  key : Option String := none
  owner : Option Wsid := none
  config : Option GameConfig := none
  servermode : Bool := false
  tmpNum : Option Nat := none
deriving DecidableEq, Repr

/-- One session record (`this.clients` value) of `src/src/index.js`. -/
structure Client where
  wsid : Wsid
  clientIp : String
  nickname : String := ""
  avatar : String := ""
  room : Option Nat := none
  owner : Option Wsid := none
  status : Option String := none
  onlineKey : Option String := none
  servermode : Bool := false
  onconfig : Option Wsid := none
  connectTime : Nat
  lastActivity : Nat
  beatWaiting : Bool := false
  banned : Bool := false
deriving DecidableEq, Repr

/-- A row of `getclientlist`. -/
structure ClientEntry where
  nickname : String
  avatar : String
  noRoom : Bool
  status : Option String
  wsid : Wsid
  onlineKey : Option String
deriving DecidableEq, Repr

/-- One element of the `getroomlist` snapshot.  `hole` models the JS array
holes produced by assigning `roomlist[i] = "server"` past the current
length (serialized as `null`). -/
inductive RoomItem where
  | hole
  | server
  | entry (nickname avatar : String) (config : GameConfig) (num : Nat) (key : Option String)
deriving DecidableEq, Repr

/-- The wire messages the broker sends (only the arguments the claims need;
each constructor corresponds to one `sendl`/`send` call shape). -/
inductive Msg where
  | denied (reason : String)
  | heartbeat
  | roomlist (rooms : List RoomItem) (events : List Nat) (clients : List ClientEntry) (selfId : Wsid)
  | updaterooms (rooms : List RoomItem) (clients : List ClientEntry)
  | updateclients (clients : List ClientEntry)
  | createroom (key : Option String)
  | createroomClaim (key : Option String) (config : GameConfig) (mode : String)
  | createroomSlot (idx : Nat)
  | enterroomfailed
  | reloadroomEmpty
  | reloadroomTrue
  | selfclose
  | onconnection (id : Wsid)
  | onclose (id : Wsid)
  | onmessage (id : Wsid) (raw : String)
deriving DecidableEq, Repr

/-- Effects of one handler run: the trace of sent messages (addressee, message)
and the connections it closed. -/
structure Effects where
  msgs : List (Wsid × Msg) := []
  closed : List Wsid := []
deriving DecidableEq, Repr

/-- Whole-broker state (`this.rooms`, `this.clients`, the ban lists and the
event expiry instants).  `nextRid` is the model's fresh-identity counter for
rooms. -/
structure LobbyState where
  rooms : List Room := []
  clients : List Client := []
  bannedKeys : List String := []
  bannedIps : List String := []
  bannedKeyWords : List String := []
  events : List Nat := []
  nextRid : Nat := 0
deriving DecidableEq, Repr

/-- `this.clients.get(id)`. -/
def findClient (s : LobbyState) (id : Wsid) : Option Client :=
  s.clients.find? (fun c => decide (c.wsid = id))

/-- `this.clients.has(id)`. -/
def existsClient (s : LobbyState) (id : Wsid) : Bool :=
  (findClient s id).isSome

/-- In-place mutation of the registered client object with id `id`. -/
def updateClient (s : LobbyState) (id : Wsid) (f : Client → Client) : LobbyState :=
  { s with clients := s.clients.map (fun c => if c.wsid = id then f c else c) }

/-- Resolve a room reference (JS object identity) by its `rid`. -/
def findRoom (s : LobbyState) (rid : Nat) : Option Room :=
  s.rooms.find? (fun r => decide (r.rid = rid))

/-- In-place mutation of the room object with identity `rid`. -/
def updateRoom (s : LobbyState) (rid : Nat) (f : Room → Room) : LobbyState :=
  { s with rooms := s.rooms.map (fun r => if r.rid = rid then f r else r) }

/-! ### Liveness sweep (`alarm`, `src/src/index.js` lines 54-115)

The per-socket body of the sweep: the auth-timeout check (lines 82-91)
followed by the heartbeat check (lines 93-108).  Each arm of the original
`if`/`continue` chain becomes one `AlarmAction`. -/

/-- Which arm of the sweep body fires for one tracked session. -/
inductive AlarmAction where
  | nothing
  | authDeny
  | hbClose
  | hbProbe
deriving DecidableEq, Repr

/-- The guard chain of the sweep body:
`if (!client.onlineKey && !client.banned && (now - client.connectTime > 2000))`
then the auth denial; else
`if (now - client.lastActivity > 60000)` either close (probe outstanding)
or probe. -/
def alarmCheck (now : Nat) (c : Client) : AlarmAction :=
  if truthyStr c.onlineKey = false ∧ c.banned = false ∧ now - c.connectTime > 2000 then
    .authDeny
  else if now - c.lastActivity > 60000 then
    if c.beatWaiting then .hbClose else .hbProbe
  else
    .nothing

/-- Effect of the sweep body on one tracked session:
(updated session, messages sent to it, whether its connection was closed). -/
def alarmStep (now : Nat) (c : Client) : Client × List Msg × Bool :=
  match alarmCheck now c with
  | .authDeny => ({ c with banned := true }, [Msg.denied "key"], true)
  | .hbClose => (c, [], true)
  | .hbProbe => ({ c with beatWaiting := true }, [Msg.heartbeat], false)
  | .nothing => (c, [], false)

/-- The activity touch every inbound frame performs before any dispatch
(`webSocketMessage`, lines 210-212):
`client.lastActivity = Date.now(); client.beatWaiting = false;`. -/
def touchActivity (now : Nat) (c : Client) : Client :=
  { c with lastActivity := now, beatWaiting := false }

/-! ### Room-list snapshot (`getroomlist`, `src/src/index.js` lines 345-373)

`getroomlist` first zeroes a transient `_num` on every room, then walks the
client map incrementing `_num` of each client's room (skipping servermode
sessions), then renders the list: index `i` is assigned the literal marker
for a servermode room, rooms with both owner and config are pushed as tuples
(sending a `reloadroom` hint to the owner when `_num` is 0), and `_num` is
deleted again. -/

/-- `this.rooms[i]._num = 0` for every room. -/
def zeroNums (rooms : List Room) : List Room :=
  rooms.map (fun r => { r with tmpNum := some 0 })

/-- `client.room._num++`: bump the transient counter of the room a client
points at. -/
def bumpRoom (rooms : List Room) (rid : Nat) : List Room :=
  rooms.map (fun r => if r.rid = rid then { r with tmpNum := some (r.tmpNum.getD 0 + 1) } else r)

/-- The member-count loop body over one client:
`if (client.room && !client.servermode) client.room._num++`. -/
def numStep (rooms : List Room) (c : Client) : List Room :=
  match c.room with
  | some rid => if c.servermode then rooms else bumpRoom rooms rid
  | none => rooms

/-- The rooms with their transient `_num` counters filled in from the client
map (`getroomlist` lines 347-354). -/
def roomsWithNums (s : LobbyState) : List Room :=
  s.clients.foldl numStep (zeroNums s.rooms)

/-- The live member count of a room in a client list: sessions whose `room`
reference is this room and which are not in servermode. -/
def countIn (cs : List Client) (rid : Nat) : Nat :=
  (cs.filter (fun c => decide (c.room = some rid) && !c.servermode)).length

/-- Live member count of room `rid` in state `s`. -/
def countMembers (s : LobbyState) (rid : Nat) : Nat :=
  countIn s.clients rid

/-- `roomlist[i] = x` on a JS array: in-range assignment sets the slot,
out-of-range assignment pads with holes. -/
def setItem (l : List RoomItem) (i : Nat) (x : RoomItem) : List RoomItem :=
  if i < l.length then l.set i x
  else l ++ List.replicate (i - l.length) RoomItem.hole ++ [x]

/-- `this.rooms[i].owner.nickname` read at render time. -/
def ownerNick (s : LobbyState) (ow : Wsid) : String :=
  match findClient s ow with
  | some o => o.nickname
  | none => ""

/-- `this.rooms[i].owner.avatar` read at render time. -/
def ownerAvatar (s : LobbyState) (ow : Wsid) : String :=
  match findClient s ow with
  | some o => o.avatar
  | none => ""

/-- The rendering loop of `getroomlist` (lines 355-371): `i` is the current
room index, the accumulator carries the list built so far and the
`reloadroom` hints already sent. -/
def renderAux (s : LobbyState) : Nat → List Room → List RoomItem × List (Wsid × Msg) →
    List RoomItem × List (Wsid × Msg)
  | _, [], acc => acc
  | i, r :: rest, (items, msgs) =>
    if r.servermode then
      renderAux s (i + 1) rest (setItem items i RoomItem.server, msgs)
    else
      match r.owner, r.config with
      | some ow, some cfg =>
        let n := r.tmpNum.getD 0
        let msgs1 := if n = 0 then msgs ++ [(ow, Msg.reloadroomEmpty)] else msgs
        renderAux s (i + 1) rest
          (items ++ [RoomItem.entry (ownerNick s ow) (ownerAvatar s ow) cfg n r.key], msgs1)
      | _, _ => renderAux s (i + 1) rest (items, msgs)

/-- The whole `getroomlist` call: the returned snapshot, the `reloadroom`
hints it sends, and the state it leaves behind (every transient `_num`
deleted, nothing else changed). -/
def getroomlistStep (s : LobbyState) : List RoomItem × List (Wsid × Msg) × LobbyState :=
  let (items, msgs) := renderAux s 0 (roomsWithNums s) ([], [])
  (items, msgs, { s with rooms := s.rooms.map (fun r => { r with tmpNum := none }) })

/-- `getclientlist` (lines 375-388). -/
def getclientlist (s : LobbyState) : List ClientEntry :=
  s.clients.map (fun c =>
    { nickname := c.nickname, avatar := c.avatar, noRoom := c.room.isNone,
      status := c.status, wsid := c.wsid, onlineKey := c.onlineKey })

/-- `updaterooms` (lines 390-398): recompute both snapshots and push them to
every session not currently in a room. -/
def updaterooms (s : LobbyState) : LobbyState × List (Wsid × Msg) :=
  let (items, rm, s1) := getroomlistStep s
  let cl := getclientlist s1
  let bm := (s1.clients.filter (fun c => c.room.isNone)).map
    (fun c => (c.wsid, Msg.updaterooms items cl))
  (s1, rm ++ bm)

/-- `updateclients` (lines 400-407): push the client list to every session not
currently in a room (no state change). -/
def updateclients (s : LobbyState) : List (Wsid × Msg) :=
  let cl := getclientlist s
  (s.clients.filter (fun c => c.room.isNone)).map (fun c => (c.wsid, Msg.updateclients cl))

/-- `checkevents` (lines 409-419): purge every event whose expiry instant has
passed and return the survivors. -/
def checkevents (now : Nat) (s : LobbyState) : List Nat :=
  s.events.filter (fun u => !decide (u ≤ now))

/-! ### Connection setup (`onConnect`, `src/src/index.js` lines 143-188)

A session object is allocated and registered, then, if the client IP is on
the ban list, `denied,"banned"` is sent and the connection is closed before
anything else; otherwise the initial `roomlist` snapshot is sent. -/

/-- The fresh session object of `onConnect` (lines 148-163). -/
def freshClient (wsid : Wsid) (clientIp : String) (now : Nat) : Client :=
  { wsid := wsid, clientIp := clientIp, connectTime := now, lastActivity := now }

/-- `onConnect(ws, clientIp)` with the broker-generated id made explicit. -/
def onConnect (s : LobbyState) (wsid : Wsid) (clientIp : String) (now : Nat) :
    LobbyState × Effects :=
  let s1 := { s with clients := s.clients ++ [freshClient wsid clientIp now] }
  if clientIp ∈ s1.bannedIps then
    (s1, { msgs := [(wsid, Msg.denied "banned")], closed := [wsid] })
  else
    let (items, rmsgs, s2) := getroomlistStep s1
    let evs := checkevents now s2
    let s3 := { s2 with events := evs }
    (s3, { msgs := rmsgs ++ [(wsid, Msg.roomlist items evs (getclientlist s3) wsid)] })

/-! ### Lobby commands (`this.messages`, `src/src/index.js` lines 430-617)

Each handler receives the registered session object of the sender; the
dispatcher (`webSocketMessage`) resolves it from the socket attachment's
`wsid`, so the handlers look it up by id and are a no-op when it is absent
(the dispatcher returns before calling them in that case). -/

/-- `messages.create` (lines 431-444). -/
def msg_create (s : LobbyState) (cid : Wsid) (key : Option String)
    (nickname : Option String) (avatar : String) : LobbyState × Effects :=
  match findClient s cid with
  | none => (s, {})
  | some c =>
    if c.onlineKey = key then
      let rid := s.nextRid
      let newRoom : Room := { rid := rid, key := key, owner := some cid }
      let s1 := updateClient s cid (fun x =>
        { x with nickname := getNickname nickname, avatar := avatar,
                 room := some rid, status := none })
      let s2 := { s1 with rooms := s1.rooms ++ [newRoom], nextRid := rid + 1 }
      (s2, { msgs := [(cid, Msg.createroom key)] })
    else
      (s, {})

/-- The server-claim guard of `messages.enter` (line 462):
`room.servermode && !room.owner._onconfig && config && mode`. -/
def claimCond (room : Room) (o : Client) (config : Option GameConfig)
    (mode : Option String) : Bool :=
  room.servermode && o.onconfig.isNone && config.isSome && mode.isSome

/-- The admission-failure guard of `messages.enter` (line 467):
`!room.config || (room.config.gameStarted && (!room.config.observe ||
!room.config.observeReady))`. -/
def enterFailCond (room : Room) : Bool :=
  match room.config with
  | none => true
  | some rc => rc.gameStarted && (!rc.observe || !rc.observeReady)

/-- `messages.enter` (lines 445-475).  The dangling-reference branches (a room
whose owner object is no longer registered) are no-ops: such a state does not
arise because rooms are destroyed in the same step their owner closes. -/
def msg_enter (s : LobbyState) (cid : Wsid) (key : Option String)
    (nickname : Option String) (avatar : String) (config : Option GameConfig)
    (mode : Option String) : LobbyState × Effects :=
  match findClient s cid with
  | none => (s, {})
  | some _ =>
    let s1 := updateClient s cid (fun x =>
      { x with nickname := getNickname nickname, avatar := avatar })
    match s1.rooms.find? (fun r => decide (r.key = key)) with
    | none => (s1, { msgs := [(cid, Msg.enterroomfailed)] })
    | some room =>
      let s2 := updateClient s1 cid (fun x => { x with room := some room.rid, status := none })
      match room.owner with
      | none => (s2, {})
      | some ow =>
        match findClient s2 ow with
        | none => (s2, {})
        | some o =>
          if claimCond room o config mode then
            let s3 := updateClient s2 ow (fun x =>
              { x with onconfig := some cid, nickname := getNickname nickname, avatar := avatar })
            let (s4, m2) := updaterooms s3
            (s4, { msgs := (ow, Msg.createroomClaim room.key (config.getD default) (mode.getD "")) :: m2 })
          else if enterFailCond room then
            let (s3, m2) := updaterooms s2
            (s3, { msgs := (cid, Msg.enterroomfailed) :: m2 })
          else
            let s3 := updateClient s2 cid (fun x => { x with owner := some ow })
            let (s4, m2) := updaterooms s3
            (s4, { msgs := (ow, Msg.onconnection cid) :: m2 })

/-- `messages.server` (lines 481-506).  `cfg`, when present, is the tuple
`[slotIndex, nickname, avatar]`. -/
def msg_server (s : LobbyState) (cid : Wsid) (cfg : Option (Nat × Option String × String)) :
    LobbyState × Effects :=
  match findClient s cid with
  | none => (s, {})
  | some _ =>
    match cfg with
    | some (idx, nick, av) =>
      let s1 := updateClient s cid (fun x => { x with servermode := true })
      match s1.rooms.get? idx with
      | none => (s1, { msgs := [(cid, Msg.reloadroomTrue)] })
      | some room =>
        if room.owner.isSome then
          (s1, { msgs := [(cid, Msg.reloadroomTrue)] })
        else
          let s2 := updateRoom s1 room.rid (fun r => { r with owner := some cid })
          let s3 := updateClient s2 cid (fun x =>
            { x with room := some room.rid, nickname := getNickname nick, avatar := av })
          (s3, { msgs := [(cid, Msg.createroomSlot idx)] })
    | none =>
      match s.rooms.find? (fun r => decide (r.owner = none)) with
      | some room =>
        let s1 := updateRoom s room.rid (fun r => { r with owner := some cid, servermode := true })
        let s2 := updateClient s1 cid (fun x => { x with room := some room.rid, servermode := true })
        let (s3, m) := updaterooms s2
        (s3, { msgs := m })
      | none =>
        let (s1, m) := updaterooms s
        (s1, { msgs := m })

/-- `messages.key` (lines 507-519).  `idTuple = none` models a missing or
non-object argument; `some k0` models an object whose first element is `k0`
(`none` there models an absent `id[0]`). -/
def msg_key (s : LobbyState) (cid : Wsid) (idTuple : Option (Option String)) :
    LobbyState × Effects :=
  match findClient s cid with
  | none => (s, {})
  | some c =>
    match idTuple with
    | none => (s, { msgs := [(cid, Msg.denied "key")], closed := [cid] })
    | some k0 =>
      if (match k0 with | some k => decide (k ∈ s.bannedKeys) | none => false) then
        ({ s with bannedIps := s.bannedIps ++ [c.clientIp] }, { closed := [cid] })
      else
        (updateClient s cid (fun x => { x with onlineKey := k0 }), {})

/-- `messages.config` (lines 576-592).  The dangling-reference branch (the
sender's `room` object no longer registered) behaves as the failed owner
check: no registered room's `owner` can be that dead object. -/
def msg_config (s : LobbyState) (cid : Wsid) (config : Option GameConfig) :
    LobbyState × Effects :=
  match findClient s cid with
  | none => (s, {})
  | some c =>
    let finish := fun (st : LobbyState) (ms : List (Wsid × Msg)) =>
      let (st1, m2) := updaterooms st
      (st1, ({ msgs := ms ++ m2 } : Effects))
    match c.room with
    | none => finish s []
    | some rid =>
      match findRoom s rid with
      | none => finish s []
      | some room =>
        if room.owner = some cid then
          let (sA, msA) :=
            if room.servermode then
              let sA := updateRoom s rid (fun r => { r with servermode := false })
              match c.onconfig with
              | some t =>
                if existsClient sA t then
                  let sB := updateClient sA t (fun x => { x with owner := some cid })
                  let sC := updateClient sB cid (fun x => { x with onconfig := none })
                  (sC, [(cid, Msg.onconnection t)])
                else
                  (updateClient sA cid (fun x => { x with onconfig := none }), [])
              | none => (sA, [])
            else
              (s, [])
          let sD := updateRoom sA rid (fun r => { r with config := config })
          finish sD msA
        else
          finish s []

/-- The `selfclose` notifications of `handleClose` (lines 275-284): for each
room owned by the closing session, one message to every other session whose
room reference is that room. -/
def closeScMsgs (s : LobbyState) (cid : Wsid) : List (Wsid × Msg) :=
  (s.rooms.filter (fun r => decide (r.owner = some cid))).flatMap (fun r =>
    (s.clients.filter (fun o => decide (o.room = some r.rid) && !decide (o.wsid = cid))).map
      (fun o => (o.wsid, Msg.selfclose)))

/-- The registry after `handleClose` spliced out every room the closing
session owned (line 282) and unregistered the session itself
(`cleanupClient`, lines 290 and 313-315); nothing else is touched — in
particular the surviving sessions' room references are NOT cleared. -/
def closeSurvivors (s : LobbyState) (cid : Wsid) : LobbyState :=
  { s with rooms := s.rooms.filter (fun r => !decide (r.owner = some cid)),
           clients := s.clients.filter (fun x => !decide (x.wsid = cid)) }

/-- `handleClose` (lines 259-297): destroy every room the closing session
owns (notifying the other sessions still pointing at it with `selfclose`),
notify the session's relay owner with `onclose`, unregister the session, and
broadcast `updaterooms` if the session was in a room, else `updateclients`. -/
def handleClose (s : LobbyState) (cid : Wsid) : LobbyState × Effects :=
  match findClient s cid with
  | none => (s, {})
  | some c =>
    let ocMsgs : List (Wsid × Msg) :=
      match c.owner with
      | some ow => [(ow, Msg.onclose cid)]
      | none => []
    if c.room.isSome then
      ((updaterooms (closeSurvivors s cid)).1,
        { msgs := closeScMsgs s cid ++ ocMsgs ++ (updaterooms (closeSurvivors s cid)).2 })
    else
      (closeSurvivors s cid,
        { msgs := closeScMsgs s cid ++ ocMsgs ++ updateclients (closeSurvivors s cid) })

/-! ### Session rehydration (`src/unnamed/part_000`)

The hibernation iteration: `createClientWrapper` (lines 66-89) rebuilds the
in-memory client object from the durable socket attachment, and the entry of
`webSocketMessage` (lines 118-127) runs it whenever the registry has no live
entry for the attachment's id. -/

/-- The durable socket attachment of `part_000`
(`{ wsid, ip, joinedAt, verified }`). -/
structure MetaP0 where
  wsid : Wsid
  ip : String
  joinedAt : Nat
  verified : Bool
deriving DecidableEq, Repr

/-- The client record shape of `part_000` (no liveness bookkeeping fields:
that iteration uses lazy checks instead of the alarm). -/
structure ClientP0 where
  wsid : Wsid
  clientIp : String
  nickname : String := ""
  avatar : String := ""
  room : Option Nat := none
  owner : Option Wsid := none
  status : Option String := none
  onlineKey : Option String := none
  servermode : Bool := false
  onconfig : Option Wsid := none
deriving DecidableEq, Repr

/-- The minimal client object `createClientWrapper` builds from the durable
attachment. -/
def freshClientP0 (meta : MetaP0) : ClientP0 :=
  { wsid := meta.wsid, clientIp := meta.ip }

/-- `createClientWrapper(ws, metadata)`: if the registry already has an entry
for `metadata.wsid` it is returned unchanged ("avoid overwrite"), otherwise a
minimal client is built from the attachment and inserted. -/
def createClientWrapper (clients : List ClientP0) (meta : MetaP0) :
    ClientP0 × List ClientP0 :=
  match clients.find? (fun c => decide (c.wsid = meta.wsid)) with
  | some c => (c, clients)
  | none =>
    let c := freshClientP0 meta
    (c, clients ++ [c])

/-- The rehydration entry of `part_000`'s `webSocketMessage` (lines 124-127):
`let client = this.clients.get(meta.wsid); if (!client) client =
this.createClientWrapper(ws, meta);` — run before the message is dispatched. -/
def resolveClient (clients : List ClientP0) (meta : MetaP0) :
    ClientP0 × List ClientP0 :=
  match clients.find? (fun c => decide (c.wsid = meta.wsid)) with
  | some c => (c, clients)
  | none => createClientWrapper clients meta

/-! ### Registry lemmas

Looking a record up after a keyed in-place update: the updated record is seen
under its own key, every other key is untouched. -/

theorem find?_map_ite {α β : Type} [DecidableEq β] (keyf : α → β) (l : List α)
    (id w : β) (f : α → α) (hf : ∀ x, keyf (f x) = keyf x) :
    (l.map (fun c => if keyf c = id then f c else c)).find? (fun c => decide (keyf c = w)) =
      if w = id then (l.find? (fun c => decide (keyf c = w))).map f
      else l.find? (fun c => decide (keyf c = w)) := by
  induction l with
  | nil => by_cases hw : w = id <;> simp [hw]
  | cons a l ih =>
    have hga : keyf (if keyf a = id then f a else a) = keyf a := by
      by_cases ha : keyf a = id <;> simp [ha, hf]
    by_cases haw : keyf a = w
    · have hpos : keyf (if keyf a = id then f a else a) = w := hga.trans haw
      rw [List.map_cons, List.find?_cons_of_pos _ (by simp [hpos])]
      by_cases hw : w = id
      · rw [if_pos hw, List.find?_cons_of_pos _ (by simp [haw])]
        simp [haw.trans hw]
      · rw [if_neg hw, List.find?_cons_of_pos _ (by simp [haw])]
        rw [if_neg (by rw [haw]; exact hw)]
    · have hneg : ¬(keyf (if keyf a = id then f a else a) = w) := by
        rw [hga]; exact haw
      rw [List.map_cons, List.find?_cons_of_neg _ (by simp [hneg]), ih]
      by_cases hw : w = id
      · rw [if_pos hw, if_pos hw, List.find?_cons_of_neg _ (by simp [haw])]
      · rw [if_neg hw, if_neg hw, List.find?_cons_of_neg _ (by simp [haw])]

theorem findClient_updateClient (s : LobbyState) (id w : Wsid) (f : Client → Client)
    (hf : ∀ x, (f x).wsid = x.wsid) :
    findClient (updateClient s id f) w =
      if w = id then (findClient s w).map f else findClient s w :=
  find?_map_ite Client.wsid s.clients id w f hf

theorem findRoom_updateRoom (s : LobbyState) (rid rid2 : Nat) (f : Room → Room)
    (hf : ∀ x, (f x).rid = x.rid) :
    findRoom (updateRoom s rid f) rid2 =
      if rid2 = rid then (findRoom s rid2).map f else findRoom s rid2 :=
  find?_map_ite Room.rid s.rooms rid rid2 f hf

theorem findClient_updateClient_self (s : LobbyState) (id : Wsid) (f : Client → Client)
    (hf : ∀ x, (f x).wsid = x.wsid) :
    findClient (updateClient s id f) id = (findClient s id).map f := by
  rw [findClient_updateClient s id id f hf, if_pos rfl]

theorem findClient_updateClient_ne (s : LobbyState) (id w : Wsid) (f : Client → Client)
    (hw : ¬(w = id)) (hf : ∀ x, (f x).wsid = x.wsid) :
    findClient (updateClient s id f) w = findClient s w := by
  rw [findClient_updateClient s id w f hf, if_neg hw]

theorem findRoom_updateRoom_self (s : LobbyState) (rid : Nat) (f : Room → Room)
    (hf : ∀ x, (f x).rid = x.rid) :
    findRoom (updateRoom s rid f) rid = (findRoom s rid).map f := by
  rw [findRoom_updateRoom s rid rid f hf, if_pos rfl]

theorem findClient_updateRoom (s : LobbyState) (rid : Nat) (f : Room → Room) (w : Wsid) :
    findClient (updateRoom s rid f) w = findClient s w := rfl

theorem findRoom_updateClient (s : LobbyState) (id : Wsid) (f : Client → Client) (rid : Nat) :
    findRoom (updateClient s id f) rid = findRoom s rid := rfl

theorem findClient_set_rooms (s : LobbyState) (rooms : List Room) (w : Wsid) :
    findClient { s with rooms := rooms } w = findClient s w := rfl

theorem findRoom_set_clients (s : LobbyState) (clients : List Client) (rid : Nat) :
    findRoom { s with clients := clients } rid = findRoom s rid := rfl

theorem updateClient_rooms (s : LobbyState) (id : Wsid) (f : Client → Client) :
    (updateClient s id f).rooms = s.rooms := rfl

theorem updateRoom_clients (s : LobbyState) (rid : Nat) (f : Room → Room) :
    (updateRoom s rid f).clients = s.clients := rfl

theorem updaterooms_clients (s : LobbyState) : (updaterooms s).1.clients = s.clients := rfl

theorem updaterooms_rooms (s : LobbyState) :
    (updaterooms s).1.rooms = s.rooms.map (fun r => { r with tmpNum := none }) := rfl

/-! ### Claims C1, C3, C4 -/

/-- C1: on an inbound message whose durable attachment carries session id
`meta.wsid`, if no live in-memory session exists for that id then a minimal
session reconstructed from the attachment is re-inserted into the registry
(and is found there afterwards), and if a live session already exists the
rehydration returns exactly that session and leaves the whole registry
unchanged — it neither duplicates nor resets an already-live session. -/
theorem c1_rehydration (clients : List ClientP0) (meta : MetaP0) :
    (clients.find? (fun c => decide (c.wsid = meta.wsid)) = none →
      resolveClient clients meta = (freshClientP0 meta, clients ++ [freshClientP0 meta]) ∧
      ((clients ++ [freshClientP0 meta]).find? (fun c => decide (c.wsid = meta.wsid))
        = some (freshClientP0 meta))) ∧
    (∀ c0, clients.find? (fun c => decide (c.wsid = meta.wsid)) = some c0 →
      resolveClient clients meta = (c0, clients)) := by
  constructor
  · intro h
    constructor
    · simp [resolveClient, createClientWrapper, h]
    · rw [List.find?_append, h]
      simp [freshClientP0]
  · intro c0 h
    simp [resolveClient, h]

/-- Witness for C1 at concrete inputs: an empty registry gets the minimal
session inserted; a registry already holding a session for the id is left
unchanged. -/
theorem c1_rehydration_witness :
    (resolveClient [] ⟨"42", "ip", 0, false⟩ =
      (freshClientP0 ⟨"42", "ip", 0, false⟩, [freshClientP0 ⟨"42", "ip", 0, false⟩])) ∧
    (resolveClient [{ wsid := "42", clientIp := "ip", nickname := "Alice" }] ⟨"42", "ip", 0, false⟩ =
      ({ wsid := "42", clientIp := "ip", nickname := "Alice" },
        [{ wsid := "42", clientIp := "ip", nickname := "Alice" }])) := by
  refine ⟨((c1_rehydration [] ⟨"42", "ip", 0, false⟩).1 (by decide)).1, ?_⟩
  exact (c1_rehydration [{ wsid := "42", clientIp := "ip", nickname := "Alice" }]
    ⟨"42", "ip", 0, false⟩).2 { wsid := "42", clientIp := "ip", nickname := "Alice" } (by decide)

/-- C3: at a liveness sweep, a tracked session that is not authenticated
(`onlineKey` still unset) and connected more than 2000 ms ago is sent
`denied,"key"` and its connection is terminated; and the auth-timeout check
never fires for a session whose `key` command already succeeded: no
`denied,"key"` is ever sent to it, and the only way the sweep closes it is
the heartbeat arm.  (`banned = false` states that the session was not already
denied and closed by an earlier sweep: the flag is set, together with closing
the socket, exactly when the denial fires, so every live tracked session
satisfies it.) -/
theorem c3_auth_timeout (now : Nat) (c : Client) (hb : c.banned = false) :
    (truthyStr c.onlineKey = false → now - c.connectTime > 2000 →
      alarmCheck now c = .authDeny ∧
      alarmStep now c = ({ c with banned := true }, [Msg.denied "key"], true)) ∧
    (truthyStr c.onlineKey = true →
      alarmCheck now c ≠ .authDeny ∧
      Msg.denied "key" ∉ (alarmStep now c).2.1 ∧
      ((alarmStep now c).2.2 = true → alarmCheck now c = .hbClose)) := by
  constructor
  · intro hk ht
    have hc : alarmCheck now c = .authDeny := by
      simp [alarmCheck, hk, hb, ht]
    exact ⟨hc, by simp [alarmStep, hc]⟩
  · intro hk
    have hc : alarmCheck now c ≠ .authDeny := by
      simp only [alarmCheck]
      rw [if_neg (by simp [hk])]
      split
      · split <;> simp
      · simp
    refine ⟨hc, ?_, ?_⟩
    · simp only [alarmStep]
      cases h : alarmCheck now c <;> simp_all
    · simp only [alarmStep]
      cases h : alarmCheck now c <;> simp_all

/-- A fresh unauthenticated session used by the C3 witness. -/
def c3Fresh : Client :=
  { wsid := "1", clientIp := "ip", connectTime := 0, lastActivity := 3000 }

/-- The same session after a successful `key` command, for the C3 witness. -/
def c3Authed : Client :=
  { c3Fresh with onlineKey := some "K1" }

/-- Witness for C3: a session 3000 ms past connect without a key is denied and
closed; an authenticated session in the same position is not touched by the
auth arm. -/
theorem c3_auth_timeout_witness :
    (alarmStep 3000 c3Fresh = ({ c3Fresh with banned := true }, [Msg.denied "key"], true)) ∧
    (alarmCheck 3000 c3Authed ≠ .authDeny) := by
  constructor
  · exact ((c3_auth_timeout 3000 c3Fresh rfl).1 (by decide) (by decide)).2
  · exact ((c3_auth_timeout 3000 c3Authed rfl).2 (by decide)).1

/-- C4: at a sweep, a session idle for more than 60000 ms whose previous probe
is still unanswered (`beatWaiting`) is terminated without any further frame;
an idle session with no outstanding probe gets `beatWaiting` set and exactly
one literal `"heartbeat"` text frame, and is not closed — so a sweep never
closes a session whose probe flag is clear, and a session that stays idle and
silent is closed at the following sweep (the second firing), not the first.
Any inbound frame resets `lastActivity` to its arrival time and clears the
probe flag before any dispatch.  (The session is taken as authenticated so the
auth-timeout arm does not preempt the heartbeat arm.) -/
theorem c4_heartbeat (now later : Nat) (c : Client)
    (hauth : truthyStr c.onlineKey = true) :
    (now - c.lastActivity > 60000 → c.beatWaiting = false →
      alarmStep now c = ({ c with beatWaiting := true }, [Msg.heartbeat], false)) ∧
    (now - c.lastActivity > 60000 → c.beatWaiting = true →
      alarmStep now c = (c, [], true)) ∧
    (c.beatWaiting = false → (alarmStep now c).2.2 = false) ∧
    (now - c.lastActivity > 60000 → c.beatWaiting = false →
      later - c.lastActivity > 60000 →
      (alarmStep later (alarmStep now c).1).2.2 = true) ∧
    ((touchActivity now c).lastActivity = now ∧ (touchActivity now c).beatWaiting = false) := by
  have hna : ∀ m, truthyStr c.onlineKey = false ∧ c.banned = false ∧ m - c.connectTime > 2000 → False := by
    intro m h
    rw [hauth] at h
    exact absurd h.1 (by simp)
  refine ⟨?_, ?_, ?_, ?_, rfl, rfl⟩
  · intro hidle hw
    have hc : alarmCheck now c = .hbProbe := by
      simp only [alarmCheck]
      rw [if_neg (hna now), if_pos hidle, if_neg (by simp [hw])]
    simp [alarmStep, hc]
  · intro hidle hw
    have hc : alarmCheck now c = .hbClose := by
      simp only [alarmCheck]
      rw [if_neg (hna now), if_pos hidle, if_pos hw]
    simp [alarmStep, hc]
  · intro hw
    simp only [alarmStep, alarmCheck]
    rw [if_neg (hna now), hw]
    by_cases hidle : now - c.lastActivity > 60000 <;> simp [hidle]
  · intro hidle hw hlater
    have hc : alarmCheck now c = .hbProbe := by
      simp only [alarmCheck]
      rw [if_neg (hna now), if_pos hidle, if_neg (by simp [hw])]
    have hstep : (alarmStep now c).1 = { c with beatWaiting := true } := by
      simp [alarmStep, hc]
    rw [hstep]
    have hc2 : alarmCheck later { c with beatWaiting := true } = .hbClose := by
      simp only [alarmCheck]
      rw [if_neg (hna later), if_pos hlater]
      simp
    simp [alarmStep, hc2]

/-- An authenticated idle session used by the C4 witness. -/
def c4Idle : Client :=
  { wsid := "1", clientIp := "ip", connectTime := 0, lastActivity := 0, onlineKey := some "K1" }

/-- The same session with an outstanding probe, for the C4 witness. -/
def c4Waiting : Client :=
  { c4Idle with beatWaiting := true }

/-- Witness for C4 at a concrete session: probe on the first idle sweep, close
on the next one, and the activity touch clears the probe state. -/
theorem c4_heartbeat_witness :
    (alarmStep 70000 c4Idle = (c4Waiting, [Msg.heartbeat], false)) ∧
    ((alarmStep 80000 (alarmStep 70000 c4Idle).1).2.2 = true) ∧
    ((touchActivity 71000 c4Waiting).beatWaiting = false) := by
  refine ⟨?_, ?_, ?_⟩
  · exact (c4_heartbeat 70000 80000 c4Idle (by decide)).1 (by decide) rfl
  · exact (c4_heartbeat 70000 80000 c4Idle (by decide)).2.2.2.1 (by decide) rfl (by decide)
  · exact (c4_heartbeat 71000 0 c4Waiting (by decide)).2.2.2.2.2

/-! ### Claim C5 -/

/-- A state whose IP ban list contains `"9.9.9.9"`, for the C5 counterexample. -/
def c5State : LobbyState :=
  { bannedIps := ["9.9.9.9"] }

/-- C5 counterexample: a connection attempt from a banned IP IS answered — the
broker sends `denied,"banned"` to the banned actor before closing, so the
claim's "no reply is sent to the banned actor" is false at this input. -/
theorem c5_banned_reply_sent :
    ("7", Msg.denied "banned") ∈ (onConnect c5State "7" "9.9.9.9" 0).2.msgs ∧
    (onConnect c5State "7" "9.9.9.9" 0).2.closed = ["7"] := by
  constructor
  · simp [onConnect, c5State, freshClient]
  · simp [onConnect, c5State, freshClient]

/-- C5 (amended): for every connection attempt from an IP in the banned-IP
set, the connection is terminated before any `roomlist` snapshot is sent, and
the only reply sent to the banned actor is a single `denied,"banned"` frame
(the rejection does confirm ban status). -/
theorem c5_banned_ip (s : LobbyState) (wsid : Wsid) (ip : String) (now : Nat)
    (h : ip ∈ s.bannedIps) :
    (onConnect s wsid ip now).2.msgs = [(wsid, Msg.denied "banned")] ∧
    (onConnect s wsid ip now).2.closed = [wsid] ∧
    (∀ w rl ev cl sid, (w, Msg.roomlist rl ev cl sid) ∉ (onConnect s wsid ip now).2.msgs) := by
  have hip : ip ∈ ({ s with clients := s.clients ++ [freshClient wsid ip now]} : LobbyState).bannedIps := h
  refine ⟨?_, ?_, ?_⟩
  · simp [onConnect, hip]
  · simp [onConnect, hip]
  · intro w rl ev cl sid
    simp [onConnect, hip]

/-- Witness for the amended C5 at a concrete banned IP. -/
theorem c5_banned_ip_witness :
    (onConnect c5State "7" "9.9.9.9" 0).2.msgs = [("7", Msg.denied "banned")] ∧
    (onConnect c5State "7" "9.9.9.9" 0).2.closed = ["7"] := by
  have h := c5_banned_ip c5State "7" "9.9.9.9" 0 (by decide)
  exact ⟨h.1, h.2.1⟩

/-! ### Claim C9 -/

/-- C9: a `create` command is silently ignored — no reply, no state change —
unless the caller's validated key is literally equal to the supplied key
argument; when they are equal, a room with that key is allocated with the
caller as owner (and no config yet), the caller's `status` is cleared (its
`room` now points at the new room), and the reply `createroom,key` is the
only message sent. -/
theorem c9_create (s : LobbyState) (cid : Wsid) (c : Client) (key nickname : Option String)
    (avatar : String) (hc : findClient s cid = some c) :
    (c.onlineKey ≠ key → msg_create s cid key nickname avatar = (s, {})) ∧
    (c.onlineKey = key →
      (msg_create s cid key nickname avatar).2 =
        { msgs := [(cid, Msg.createroom key)] } ∧
      (msg_create s cid key nickname avatar).1.rooms =
        s.rooms ++ [{ rid := s.nextRid, key := key, owner := some cid }] ∧
      (findClient (msg_create s cid key nickname avatar).1 cid).map
          (fun x => (x.room, x.status, x.nickname, x.avatar)) =
        some (some s.nextRid, none, getNickname nickname, avatar)) := by
  constructor
  · intro hne
    simp [msg_create, hc, hne]
  · intro heq
    have h1 : (msg_create s cid key nickname avatar).2 =
        { msgs := [(cid, Msg.createroom key)] } := by
      simp [msg_create, hc, heq]
    have h2 : (msg_create s cid key nickname avatar).1.rooms =
        s.rooms ++ [{ rid := s.nextRid, key := key, owner := some cid }] := by
      simp [msg_create, hc, heq, updateClient]
    refine ⟨h1, h2, ?_⟩
    have h3 : (msg_create s cid key nickname avatar).1.clients =
        (updateClient s cid (fun x =>
          { x with nickname := getNickname nickname, avatar := avatar,
                   room := some s.nextRid, status := none })).clients := by
      simp [msg_create, hc, heq]
    have h4 : findClient (msg_create s cid key nickname avatar).1 cid =
        findClient (updateClient s cid (fun x =>
          { x with nickname := getNickname nickname, avatar := avatar,
                   room := some s.nextRid, status := none })) cid := by
      unfold findClient
      rw [h3]
    rw [h4, findClient_updateClient s cid cid
      (fun x => { x with nickname := getNickname nickname, avatar := avatar,
                         room := some s.nextRid, status := none })
      (fun x => rfl), if_pos rfl, hc]
    rfl

/-- The authenticated caller used by the C9 witness. -/
def c9Client : Client :=
  { wsid := "1", clientIp := "ip", connectTime := 0, lastActivity := 0, onlineKey := some "K1" }

/-- The one-client state used by the C9 witness. -/
def c9State : LobbyState :=
  { clients := [c9Client] }

/-- Witness for C9: a mismatched key is ignored, a matching key allocates the
room and replies `createroom`. -/
theorem c9_create_witness :
    (msg_create c9State "1" (some "WRONG") (some "Alice") "av" = (c9State, {})) ∧
    ((msg_create c9State "1" (some "K1") (some "Alice") "av").2 =
      { msgs := [("1", Msg.createroom (some "K1"))] }) ∧
    ((msg_create c9State "1" (some "K1") (some "Alice") "av").1.rooms =
      [{ rid := 0, key := some "K1", owner := some "1" }]) := by
  have hc : findClient c9State "1" = some c9Client := by decide
  refine ⟨?_, ?_, ?_⟩
  · exact (c9_create c9State "1" c9Client (some "WRONG") (some "Alice") "av" hc).1 (by decide)
  · exact ((c9_create c9State "1" c9Client (some "K1") (some "Alice") "av" hc).2 (by decide)).1
  · have h := ((c9_create c9State "1" c9Client (some "K1") (some "Alice") "av" hc).2 (by decide)).2.1
    simpa [c9State] using h

/-! ### Claim C8 -/

theorem find?_key_of_get? {α β : Type} [DecidableEq β] (keyf : α → β) (l : List α)
    (i : Nat) (a : α) (h : l.get? i = some a) (hnd : (l.map keyf).Nodup) :
    l.find? (fun x => decide (keyf x = keyf a)) = some a := by
  induction l generalizing i with
  | nil => simp at h
  | cons b l ih =>
    rcases List.nodup_cons.mp hnd with ⟨hb, hndl⟩
    cases i with
    | zero =>
      simp only [List.get?_cons_zero, Option.some.injEq] at h
      subst h
      rw [List.find?_cons_of_pos _ (by simp)]
    | succ n =>
      simp only [List.get?_cons_succ] at h
      have hmem : a ∈ l := List.get?_mem h
      have hbne : ¬(keyf b = keyf a) := fun he => hb (he ▸ List.mem_map_of_mem keyf hmem)
      rw [List.find?_cons_of_neg _ (by simp [hbne]), ih n h hndl]

/-- An unowned claimable slot next to a free caller, for the C8 counterexample. -/
def c8StateA : LobbyState :=
  { rooms := [{ rid := 0, key := some "K" }],
    clients := [{ wsid := "1", clientIp := "ip", connectTime := 0, lastActivity := 0 }] }

/-- An already-owned slot next to a free caller, for the C8 counterexample. -/
def c8StateB : LobbyState :=
  { rooms := [{ rid := 0, key := some "K", owner := some "9" }],
    clients := [{ wsid := "1", clientIp := "ip", connectTime := 0, lastActivity := 0 }] }

/-- C8 counterexample: on a successful `server` claim with
`cfg = [0, nickname, avatar]` the room is NOT marked servermode (only the
caller is), and on a failed claim (slot already owned) the caller's
servermode flag — state that feeds the live member counts — is still
flipped to true, so the failed claim is not effect-free on
membership-relevant state. -/
theorem c8_server_room_not_marked :
    ((findRoom (msg_server c8StateA "1" (some (0, some "N", "a"))).1 0).map
        (fun r => (r.owner, r.servermode)) = some (some "1", false)) ∧
    ((msg_server c8StateB "1" (some (0, some "N", "a"))).2.msgs = [("1", Msg.reloadroomTrue)] ∧
      (findClient (msg_server c8StateB "1" (some (0, some "N", "a"))).1 "1").map
        (fun x => x.servermode) = some true) := by
  refine ⟨by decide, by decide, by decide⟩

/-- C8 (amended): for a `server` command with `cfg = [slotIndex, nickname,
avatar]` the caller is marked servermode before the slot is examined, in
every branch.  If the room at `slotIndex` exists and is unowned the caller
claims it: the room's owner becomes the caller (its own `servermode` flag is
left unchanged, in particular it is not set), the caller's room points at it
and `createroom,slotIndex,{},"auto"` is the only reply.  If the slot is
missing or already owned, the only reply is `reloadroom,true` and the room
table and the caller's room reference are unchanged — but the caller keeps
the servermode mark even then. -/
theorem c8_server_claim (s : LobbyState) (cid : Wsid) (c : Client) (idx : Nat)
    (nick : Option String) (av : String) (hc : findClient s cid = some c)
    (hrnd : (s.rooms.map Room.rid).Nodup) :
    ((findClient (msg_server s cid (some (idx, nick, av))).1 cid).map
        (fun x => x.servermode) = some true) ∧
    (∀ room, s.rooms.get? idx = some room → room.owner = none →
      (findRoom (msg_server s cid (some (idx, nick, av))).1 room.rid).map
          (fun r => (r.owner, r.servermode)) = some (some cid, room.servermode) ∧
      (findClient (msg_server s cid (some (idx, nick, av))).1 cid).map
          (fun x => x.room) = some (some room.rid) ∧
      (msg_server s cid (some (idx, nick, av))).2.msgs = [(cid, Msg.createroomSlot idx)]) ∧
    ((s.rooms.get? idx = none ∨ ∃ room, s.rooms.get? idx = some room ∧ room.owner.isSome) →
      (msg_server s cid (some (idx, nick, av))).1.rooms = s.rooms ∧
      (findClient (msg_server s cid (some (idx, nick, av))).1 cid).map
          (fun x => x.room) = some c.room ∧
      (msg_server s cid (some (idx, nick, av))).2.msgs = [(cid, Msg.reloadroomTrue)]) := by
  refine ⟨?_, ?_, ?_⟩
  · rcases hidx : s.rooms.get? idx with _ | room
    · simp only [msg_server, hc, updateClient_rooms, hidx]
      simp [findClient_updateClient_self, hc]
    · by_cases how : room.owner.isSome
      · simp only [msg_server, hc, updateClient_rooms, hidx, if_pos how]
        simp [findClient_updateClient_self, hc]
      · simp only [msg_server, hc, updateClient_rooms, hidx, if_neg how]
        simp [findClient_updateClient_self, findClient_updateRoom, hc]
  · intro room hidx how
    have hrfind : findRoom s room.rid = some room :=
      find?_key_of_get? Room.rid s.rooms idx room hidx hrnd
    have hxw : ¬(room.owner.isSome = true) := by simp [how]
    refine ⟨?_, ?_, ?_⟩
    · simp only [msg_server, hc, updateClient_rooms, hidx, if_neg hxw]
      simp [findRoom_updateClient, findRoom_updateRoom_self, hrfind]
    · simp only [msg_server, hc, updateClient_rooms, hidx, if_neg hxw]
      simp [findClient_updateClient_self, findClient_updateRoom, hc]
    · simp only [msg_server, hc, updateClient_rooms, hidx, if_neg hxw]
  · intro hmiss
    rcases hmiss with hnone | ⟨room, hidx, how⟩
    · refine ⟨?_, ?_, ?_⟩
      · simp only [msg_server, hc, updateClient_rooms, hnone]
      · simp only [msg_server, hc, updateClient_rooms, hnone]
        simp [findClient_updateClient_self, hc]
      · simp only [msg_server, hc, updateClient_rooms, hnone]
    · refine ⟨?_, ?_, ?_⟩
      · simp only [msg_server, hc, updateClient_rooms, hidx, if_pos how]
      · simp only [msg_server, hc, updateClient_rooms, hidx, if_pos how]
        simp [findClient_updateClient_self, hc]
      · simp only [msg_server, hc, updateClient_rooms, hidx, if_pos how]

/-- Witness for the amended C8 at the concrete counterexample states: the
successful claim and the rejected claim. -/
theorem c8_server_claim_witness :
    ((findClient (msg_server c8StateA "1" (some (0, some "N", "a"))).1 "1").map
        (fun x => x.servermode) = some true) ∧
    ((msg_server c8StateB "1" (some (0, some "N", "a"))).1.rooms = c8StateB.rooms) := by
  constructor
  · exact (c8_server_claim c8StateA "1"
      { wsid := "1", clientIp := "ip", connectTime := 0, lastActivity := 0 }
      0 (some "N") "a" (by decide) (by decide)).1
  · exact ((c8_server_claim c8StateB "1"
      { wsid := "1", clientIp := "ip", connectTime := 0, lastActivity := 0 }
      0 (some "N") "a" (by decide) (by decide)).2.2
      (Or.inr ⟨{ rid := 0, key := some "K", owner := some "9" }, by decide, by decide⟩)).1

/-! ### Broadcast-shape lemmas -/

theorem find?_map_keyeq {α β : Type} [DecidableEq β] (keyf : α → β) (l : List α)
    (f : α → α) (hf : ∀ x, keyf (f x) = keyf x) (w : β) :
    (l.map f).find? (fun x => decide (keyf x = w)) =
      (l.find? (fun x => decide (keyf x = w))).map f := by
  induction l with
  | nil => simp
  | cons a l ih =>
    by_cases ha : keyf a = w
    · have hfa : keyf (f a) = w := (hf a).trans ha
      rw [List.map_cons, List.find?_cons_of_pos _ (by simp [hfa]),
        List.find?_cons_of_pos _ (by simp [ha]), Option.map_some']
    · have hfa : ¬(keyf (f a) = w) := by rw [hf a]; exact ha
      rw [List.map_cons, List.find?_cons_of_neg _ (by simp [hfa]),
        List.find?_cons_of_neg _ (by simp [ha]), ih]

theorem findRoom_tmpNone (s : LobbyState) (rid : Nat) :
    findRoom { s with rooms := s.rooms.map (fun r => { r with tmpNum := none }) } rid =
      (findRoom s rid).map (fun r => { r with tmpNum := none }) :=
  find?_map_keyeq Room.rid s.rooms (fun r => { r with tmpNum := none }) (fun _ => rfl) rid

theorem findClient_updaterooms (s : LobbyState) (w : Wsid) :
    findClient (updaterooms s).1 w = findClient s w := rfl

theorem findRoom_updaterooms (s : LobbyState) (rid : Nat) :
    findRoom (updaterooms s).1 rid =
      (findRoom s rid).map (fun r => { r with tmpNum := none }) :=
  findRoom_tmpNone s rid

theorem existsClient_updateRoom (s : LobbyState) (rid : Nat) (f : Room → Room) (t : Wsid) :
    existsClient (updateRoom s rid f) t = existsClient s t := rfl

theorem renderAux_msgs_shape (s : LobbyState) (rs : List Room) :
    ∀ (i : Nat) (items : List RoomItem) (msgs : List (Wsid × Msg)),
      ∀ m ∈ (renderAux s i rs (items, msgs)).2, m ∈ msgs ∨ m.2 = Msg.reloadroomEmpty := by
  induction rs with
  | nil =>
    intro i items msgs m hm
    exact Or.inl hm
  | cons r rest ih =>
    intro i items msgs m hm
    simp only [renderAux] at hm
    by_cases hsm : r.servermode
    · rw [if_pos hsm] at hm
      exact ih (i + 1) _ _ m hm
    · rw [if_neg hsm] at hm
      rcases hro : r.owner with _ | ow <;> rcases hrc : r.config with _ | cfg <;>
        rw [hro, hrc] at hm
      · exact ih (i + 1) _ _ m hm
      · exact ih (i + 1) _ _ m hm
      · exact ih (i + 1) _ _ m hm
      · dsimp only at hm
        by_cases hn : r.tmpNum.getD 0 = 0
        · rw [if_pos hn] at hm
          rcases ih (i + 1) _ _ m hm with hin | hr
          · rcases List.mem_append.mp hin with h | h
            · exact Or.inl h
            · simp only [List.mem_singleton] at h
              subst h
              exact Or.inr rfl
          · exact Or.inr hr
        · rw [if_neg hn] at hm
          exact ih (i + 1) _ _ m hm

theorem updaterooms_snd (s : LobbyState) :
    (updaterooms s).2 =
      (renderAux s 0 (roomsWithNums s) ([], [])).2 ++
        ((s.clients.filter (fun c => c.room.isNone)).map
          (fun c => (c.wsid, Msg.updaterooms (renderAux s 0 (roomsWithNums s) ([], [])).1
            (getclientlist { s with rooms := s.rooms.map (fun r => { r with tmpNum := none }) })))) := rfl

theorem updaterooms_msgs_shape (s : LobbyState) (w : Wsid) (m : Msg)
    (h : (w, m) ∈ (updaterooms s).2) :
    m = Msg.reloadroomEmpty ∨ ∃ rl cl, m = Msg.updaterooms rl cl := by
  rw [updaterooms_snd] at h
  rcases List.mem_append.mp h with h1 | h2
  · rcases renderAux_msgs_shape s (roomsWithNums s) 0 [] [] (w, m) h1 with h | h
    · simp at h
    · exact Or.inl h
  · rcases List.mem_map.mp h2 with ⟨c, _, hcm⟩
    exact Or.inr ⟨_, _, (congrArg Prod.snd hcm).symm⟩

theorem updaterooms_mem_updaterooms (s : LobbyState) (w : Wsid) (rl : List RoomItem)
    (cl : List ClientEntry) (h : (w, Msg.updaterooms rl cl) ∈ (updaterooms s).2) :
    ∃ c, c ∈ s.clients ∧ c.wsid = w ∧ c.room = none := by
  rw [updaterooms_snd] at h
  rcases List.mem_append.mp h with h1 | h2
  · rcases renderAux_msgs_shape s (roomsWithNums s) 0 [] [] _ h1 with h | h
    · simp at h
    · simp at h
  · rcases List.mem_map.mp h2 with ⟨c, hcmem, hcm⟩
    rcases List.mem_filter.mp hcmem with ⟨hcs, hcr⟩
    refine ⟨c, hcs, ?_, ?_⟩
    · exact congrArg Prod.fst hcm
    · simpa using hcr

theorem updaterooms_sends (s : LobbyState) (c : Client) (hc : c ∈ s.clients)
    (hr : c.room = none) :
    ∃ rl cl, (c.wsid, Msg.updaterooms rl cl) ∈ (updaterooms s).2 := by
  refine ⟨(renderAux s 0 (roomsWithNums s) ([], [])).1,
    getclientlist { s with rooms := s.rooms.map (fun r => { r with tmpNum := none }) }, ?_⟩
  rw [updaterooms_snd]
  refine List.mem_append.mpr (Or.inr ?_)
  exact List.mem_map.mpr ⟨c, List.mem_filter.mpr ⟨hc, by simp [hr]⟩, rfl⟩

theorem updateclients_mem (s : LobbyState) (w : Wsid) (m : Msg)
    (h : (w, m) ∈ updateclients s) :
    (∃ cl, m = Msg.updateclients cl) ∧ ∃ c, c ∈ s.clients ∧ c.wsid = w ∧ c.room = none := by
  rcases List.mem_map.mp h with ⟨c, hcmem, hcm⟩
  rcases List.mem_filter.mp hcmem with ⟨hcs, hcr⟩
  refine ⟨⟨_, (congrArg Prod.snd hcm).symm⟩, c, hcs, congrArg Prod.fst hcm, by simpa using hcr⟩

theorem updateclients_sends (s : LobbyState) (c : Client) (hc : c ∈ s.clients)
    (hr : c.room = none) :
    ∃ cl, (c.wsid, Msg.updateclients cl) ∈ updateclients s := by
  refine ⟨getclientlist s, ?_⟩
  exact List.mem_map.mpr ⟨c, List.mem_filter.mpr ⟨hc, by simp [hr]⟩, rfl⟩

/-! ### Claim C2 -/

/-- The anonymous relay host session of the C2 scenario. -/
def c2Host : Client :=
  { wsid := "1", clientIp := "ip1", connectTime := 0, lastActivity := 0 }

/-- The claiming client session of the C2 scenario. -/
def c2Guest : Client :=
  { wsid := "2", clientIp := "ip2", connectTime := 0, lastActivity := 0 }

/-- The claimable room config of the C2 scenario. -/
def c2Gcfg : GameConfig :=
  { gameStarted := false, observe := false, observeReady := false }

/-- Start state of the C2 scenario: one unowned room slot, the host and the
claiming client connected. -/
def c2Start : LobbyState :=
  { rooms := [{ rid := 0, key := some "K" }], clients := [c2Host, c2Guest], nextRid := 1 }

/-- State after `server` (anonymous claim by the host) and the guest's `enter`
claim carrying config and mode. -/
def c2Mid : LobbyState :=
  (msg_enter (msg_server c2Start "1" none).1 "2" (some "K") (some "Bob") "av"
    (some c2Gcfg) (some "auto")).1

/-- The host session as registered in `c2Mid`. -/
def c2MidHost : Client :=
  { wsid := "1", clientIp := "ip1", nickname := "Bob", avatar := "av", room := some 0,
    servermode := true, onconfig := some "2", connectTime := 0, lastActivity := 0 }

/-- The claimed room as registered in `c2Mid`. -/
def c2MidRoom : Room :=
  { rid := 0, key := some "K", owner := some "1", servermode := true }

/-- The full server-claim scenario: `server`, the `enter` claim, then
`config` by the host. -/
def c2Final : LobbyState × Effects :=
  msg_config c2Mid "1" (some c2Gcfg)

/-- C2: when the owner of a servermode room with a pending handoff target
issues `config`: the target's `ownerRef` is set to the owner session exactly
when the target is still a live connection (a dead target leaves every
session's `ownerRef` untouched), the `onconnection` message carrying the
target's id is sent exactly when the target is live, the pending handoff slot
is cleared, and the room's servermode flag is turned off.  The final conjunct
runs the full server-claim sequence (`server`, `enter` claim, `config`)
concretely: it ends with exactly one session holding `ownerRef` pointing at
the claiming owner and the anonymous owner slot's servermode flag cleared. -/
theorem c2_config_handoff (s : LobbyState) (cid t : Wsid) (c : Client) (rid : Nat)
    (room : Room) (cfg : Option GameConfig)
    (hc : findClient s cid = some c) (hr : c.room = some rid)
    (hfr : findRoom s rid = some room) (hown : room.owner = some cid)
    (hsm : room.servermode = true) (hoc : c.onconfig = some t) :
    ((existsClient s t = true →
        (findClient (msg_config s cid cfg).1 t).map (fun x => x.owner) = some (some cid)) ∧
      (((cid, Msg.onconnection t) ∈ (msg_config s cid cfg).2.msgs) ↔ existsClient s t = true) ∧
      ((findClient (msg_config s cid cfg).1 cid).map (fun x => x.onconfig) = some none) ∧
      ((findRoom (msg_config s cid cfg).1 rid).map (fun r => r.servermode) = some false) ∧
      (existsClient s t = false → ∀ w,
        (findClient (msg_config s cid cfg).1 w).map (fun x => x.owner) =
          (findClient s w).map (fun x => x.owner))) ∧
    ((c2Final.1.clients.filter (fun x => decide (x.owner = some "1"))).length = 1 ∧
      (findClient c2Final.1 "2").map (fun x => x.owner) = some (some "1") ∧
      (findRoom c2Final.1 0).map (fun r => r.servermode) = some false ∧
      (findClient c2Final.1 "1").map (fun x => x.onconfig) = some none ∧
      ("1", Msg.onconnection "2") ∈ c2Final.2.msgs) := by
  constructor
  · by_cases hlive : existsClient s t = true
    · obtain ⟨ct, hct⟩ : ∃ ct, findClient s t = some ct := by
        rcases h : findClient s t with _ | ct
        · rw [existsClient, h] at hlive
          simp at hlive
        · exact ⟨ct, rfl⟩
      refine ⟨?_, ?_, ?_, ?_, ?_⟩
      · intro _
        simp only [msg_config, hc, hr, hfr, hown, hsm, hoc, existsClient_updateRoom, hlive,
          if_true]
        by_cases hts : t = cid
        · subst hts
          rw [hc] at hct
          obtain rfl : c = ct := by injection hct
          simp [findClient_updaterooms, findClient_updateRoom, findClient_updateClient_self, hc]
        · simp [findClient_updaterooms, findClient_updateRoom, findClient_updateClient_self,
            findClient_updateClient_ne, hts, hct]
      · constructor
        · intro _
          exact hlive
        · intro _
          simp only [msg_config, hc, hr, hfr, hown, hsm, hoc, existsClient_updateRoom, hlive,
            if_true]
          simp
      · simp only [msg_config, hc, hr, hfr, hown, hsm, hoc, existsClient_updateRoom, hlive,
          if_true]
        by_cases hts : t = cid
        · subst hts
          rw [hc] at hct
          obtain rfl : c = ct := by injection hct
          simp [findClient_updaterooms, findClient_updateRoom, findClient_updateClient_self, hc]
        · simp [findClient_updaterooms, findClient_updateRoom, findClient_updateClient_self,
            findClient_updateClient_ne, Ne.symm hts, hc]
      · simp only [msg_config, hc, hr, hfr, hown, hsm, hoc, existsClient_updateRoom, hlive,
          if_true]
        simp [findRoom_updaterooms, findRoom_updateRoom_self, findRoom_updateClient, hfr]
      · intro hdead
        rw [hdead] at hlive
        simp at hlive
    · have hdead : existsClient s t = false := by
        simpa using hlive
      refine ⟨?_, ?_, ?_, ?_, ?_⟩
      · intro h
        rw [h] at hdead
        simp at hdead
      · constructor
        · intro hmem
          simp only [msg_config, hc, hr, hfr, hown, hsm, hoc, existsClient_updateRoom,
            hdead] at hmem
          simp only [Bool.false_eq_true, if_false, List.nil_append] at hmem
          rcases updaterooms_msgs_shape _ _ _ hmem with h | ⟨rl, cl, h⟩ <;> simp at h
        · intro h
          rw [h] at hdead
          simp at hdead
      · simp only [msg_config, hc, hr, hfr, hown, hsm, hoc, existsClient_updateRoom, hdead]
        simp [findClient_updaterooms, findClient_updateRoom, findClient_updateClient_self, hc]
      · simp only [msg_config, hc, hr, hfr, hown, hsm, hoc, existsClient_updateRoom, hdead]
        simp [findRoom_updaterooms, findRoom_updateRoom_self, findRoom_updateClient, hfr]
      · intro _ w
        simp only [msg_config, hc, hr, hfr, hown, hsm, hoc, existsClient_updateRoom, hdead]
        by_cases hw : w = cid
        · subst hw
          simp [findClient_updaterooms, findClient_updateRoom, findClient_updateClient_self, hc]
        · simp [findClient_updaterooms, findClient_updateRoom, findClient_updateClient_ne, hw]
  · refine ⟨by decide, by decide, by decide, by decide, by decide⟩

/-- Witness for C2 at the concrete handoff state reached by the scenario
prefix (`server` then the `enter` claim): the live target gets its `ownerRef`
set, `onconnection` is sent, and the room leaves servermode. -/
theorem c2_config_handoff_witness :
    (findClient (msg_config c2Mid "1" (some c2Gcfg)).1 "2").map (fun x => x.owner) =
      some (some "1") ∧
    ("1", Msg.onconnection "2") ∈ (msg_config c2Mid "1" (some c2Gcfg)).2.msgs ∧
    (findRoom (msg_config c2Mid "1" (some c2Gcfg)).1 0).map (fun r => r.servermode) =
      some false := by
  have h := c2_config_handoff c2Mid "1" "2" c2MidHost 0 c2MidRoom (some c2Gcfg)
    (by decide) (by decide) (by decide) (by decide) (by decide) (by decide)
  exact ⟨h.1.1 (by decide), h.1.2.1.mpr (by decide), h.1.2.2.2.1⟩

/-! ### Claim C6 -/

theorem mem_closeScMsgs (s : LobbyState) (cid w : Wsid) (m : Msg) :
    (w, m) ∈ closeScMsgs s cid ↔
      m = Msg.selfclose ∧ ∃ r, r ∈ s.rooms ∧ r.owner = some cid ∧
        ∃ o, o ∈ s.clients ∧ o.room = some r.rid ∧ ¬(o.wsid = cid) ∧ o.wsid = w := by
  unfold closeScMsgs
  constructor
  · intro h
    rcases List.mem_flatMap.mp h with ⟨r, hr, hm⟩
    rcases List.mem_map.mp hm with ⟨o, ho, hom⟩
    rcases List.mem_filter.mp hr with ⟨hrs, hrp⟩
    rcases List.mem_filter.mp ho with ⟨hos, hop⟩
    simp only [Bool.and_eq_true, decide_eq_true_eq, Bool.not_eq_true',
      decide_eq_false_iff_not] at hrp hop
    refine ⟨(congrArg Prod.snd hom).symm, r, hrs, hrp, o, hos, hop.1, hop.2, congrArg Prod.fst hom⟩
  · rintro ⟨rfl, r, hrs, hro, o, hos, hor, hone, rfl⟩
    refine List.mem_flatMap.mpr ⟨r, List.mem_filter.mpr ⟨hrs, by simp [hro]⟩, ?_⟩
    exact List.mem_map.mpr ⟨o, List.mem_filter.mpr ⟨hos, by simp [hor, hone]⟩, rfl⟩

theorem find?_key_filter {α β : Type} [DecidableEq β] (keyf : α → β) (l : List α)
    (p : α → Bool) (a : α) (ha : a ∈ l) (hnd : (l.map keyf).Nodup) (hp : p a = true) :
    (l.filter p).find? (fun x => decide (keyf x = keyf a)) = some a := by
  induction l with
  | nil => simp at ha
  | cons b l ih =>
    rcases List.nodup_cons.mp hnd with ⟨hb, hndl⟩
    rcases List.mem_cons.mp ha with rfl | hal
    · rw [List.filter_cons_of_pos hp, List.find?_cons_of_pos _ (by simp)]
    · have hkb : ¬(keyf b = keyf a) := fun he => hb (he ▸ List.mem_map_of_mem keyf hal)
      by_cases hpb : p b = true
      · rw [List.filter_cons_of_pos hpb, List.find?_cons_of_neg _ (by simp [hkb]),
          ih hal hndl]
      · rw [List.filter_cons_of_neg (by simpa using hpb), ih hal hndl]

/-- C6 (amended): when a session that owns a room is closed, every room it
owns is destroyed (no surviving room has it as owner); every other session
whose room reference pointed at one of those rooms is sent `selfclose` (and
`selfclose` goes to nobody else) — but it is NOT detached: every surviving
session's record, its room reference included, is exactly what it was before;
the closing session's `ownerRef`, if any, is sent `onclose` with the session
id; the session is removed from the registry; and every still-lobby session
is broadcast `updaterooms` if the closing session was in a room (no
`updateclients` is sent), else `updateclients` (no `updaterooms` is sent). -/
theorem c6_owner_close (s : LobbyState) (cid : Wsid) (c : Client)
    (hc : findClient s cid = some c)
    (hnd : (s.clients.map Client.wsid).Nodup) :
    (∀ r ∈ (handleClose s cid).1.rooms, ¬(r.owner = some cid)) ∧
    (∀ o ∈ s.clients, ¬(o.wsid = cid) →
      (((o.wsid, Msg.selfclose) ∈ (handleClose s cid).2.msgs) ↔
        ∃ r, r ∈ s.rooms ∧ r.owner = some cid ∧ o.room = some r.rid)) ∧
    (∀ o ∈ s.clients, ¬(o.wsid = cid) →
      findClient (handleClose s cid).1 o.wsid = some o) ∧
    (∀ ow, c.owner = some ow → (ow, Msg.onclose cid) ∈ (handleClose s cid).2.msgs) ∧
    (findClient (handleClose s cid).1 cid = none) ∧
    (c.room.isSome = true →
      (∀ o ∈ (handleClose s cid).1.clients, o.room = none →
        ∃ rl cl, (o.wsid, Msg.updaterooms rl cl) ∈ (handleClose s cid).2.msgs) ∧
      (∀ w cl, (w, Msg.updateclients cl) ∉ (handleClose s cid).2.msgs)) ∧
    (c.room = none →
      (∀ o ∈ (handleClose s cid).1.clients, o.room = none →
        ∃ cl, (o.wsid, Msg.updateclients cl) ∈ (handleClose s cid).2.msgs) ∧
      (∀ w rl cl, (w, Msg.updaterooms rl cl) ∉ (handleClose s cid).2.msgs)) := by
  have hcl1 : ∀ o ∈ s.clients, ¬(o.wsid = cid) →
      findClient (closeSurvivors s cid) o.wsid = some o := by
    intro o ho hone
    exact find?_key_filter Client.wsid s.clients _ o ho hnd (by simp [hone])
  have hclnone : findClient (closeSurvivors s cid) cid = none := by
    refine List.find?_eq_none.mpr ?_
    intro x hx
    rcases List.mem_filter.mp hx with ⟨_, hxp⟩
    simpa using hxp
  by_cases hrm : c.room.isSome
  · have hst : (handleClose s cid).1 = (updaterooms (closeSurvivors s cid)).1 := by
      simp only [handleClose, hc, hrm, if_true]
    have hms : (handleClose s cid).2.msgs =
        closeScMsgs s cid ++
          ((match c.owner with
            | some ow => [(ow, Msg.onclose cid)]
            | none => ([] : List (Wsid × Msg))) ++
            (updaterooms (closeSurvivors s cid)).2) := by
      simp only [handleClose, hc, hrm, if_true]
      simp [List.append_assoc]
    refine ⟨?_, ?_, ?_, ?_, ?_, ?_, ?_⟩
    · intro r hrmem
      rw [hst, updaterooms_rooms] at hrmem
      rcases List.mem_map.mp hrmem with ⟨r0, hr0, hr0e⟩
      rcases List.mem_filter.mp hr0 with ⟨_, hr0p⟩
      intro hcon
      rw [← hr0e] at hcon
      simp only [Bool.not_eq_true', decide_eq_false_iff_not] at hr0p
      exact hr0p hcon
    · intro o ho hone
      rw [hms]
      constructor
      · intro hmem
        rcases List.mem_append.mp hmem with h | h
        · rcases (mem_closeScMsgs s cid o.wsid Msg.selfclose).mp h with
            ⟨_, r, hrs, hro, o2, ho2, hor2, _, hw2⟩
          have : o2 = o := List.inj_on_of_nodup_map hnd ho2 ho hw2
          subst this
          exact ⟨r, hrs, hro, hor2⟩
        · rcases List.mem_append.mp h with h | h
          · rcases hoc : c.owner with _ | ow <;> rw [hoc] at h
            · simp at h
            · simp only [List.mem_singleton, Prod.mk.injEq] at h
              exact absurd h.2 (by simp)
          · rcases updaterooms_msgs_shape _ _ _ h with h2 | ⟨rl, cl, h2⟩ <;> simp at h2
      · rintro ⟨r, hrs, hro, hor⟩
        refine List.mem_append.mpr (Or.inl ?_)
        exact (mem_closeScMsgs s cid o.wsid Msg.selfclose).mpr
          ⟨rfl, r, hrs, hro, o, ho, hor, hone, rfl⟩
    · intro o ho hone
      rw [hst]
      rw [findClient_updaterooms]
      exact hcl1 o ho hone
    · intro ow how
      rw [hms, how]
      exact List.mem_append.mpr (Or.inr (List.mem_append.mpr (Or.inl (by simp))))
    · rw [hst, findClient_updaterooms]
      exact hclnone
    · intro _
      constructor
      · intro o ho hor
        rw [hst, updaterooms_clients] at ho
        rcases updaterooms_sends (closeSurvivors s cid) o ho hor with ⟨rl, cl, hmem⟩
        refine ⟨rl, cl, ?_⟩
        rw [hms]
        exact List.mem_append.mpr (Or.inr (List.mem_append.mpr (Or.inr hmem)))
      · intro w cl hmem
        rw [hms] at hmem
        rcases List.mem_append.mp hmem with h | h
        · exact absurd ((mem_closeScMsgs s cid w _).mp h).1 (by simp)
        · rcases List.mem_append.mp h with h | h
          · rcases hoc : c.owner with _ | ow <;> rw [hoc] at h
            · simp at h
            · simp only [List.mem_singleton, Prod.mk.injEq] at h
              exact absurd h.2 (by simp)
          · rcases updaterooms_msgs_shape _ _ _ h with h2 | ⟨rl2, cl2, h2⟩ <;> simp at h2
    · intro hcon
      rw [hcon] at hrm
      simp at hrm
  · have hcr : c.room = none := by
      rcases h : c.room with _ | v
      · rfl
      · rw [h] at hrm
        simp at hrm
    have hst : (handleClose s cid).1 = closeSurvivors s cid := by
      simp only [handleClose, hc, hrm, Bool.false_eq_true, if_false]
    have hms : (handleClose s cid).2.msgs =
        closeScMsgs s cid ++
          ((match c.owner with
            | some ow => [(ow, Msg.onclose cid)]
            | none => ([] : List (Wsid × Msg))) ++
            updateclients (closeSurvivors s cid)) := by
      simp only [handleClose, hc, hrm, Bool.false_eq_true, if_false]
      simp [List.append_assoc]
    refine ⟨?_, ?_, ?_, ?_, ?_, ?_, ?_⟩
    · intro r hrmem
      rw [hst] at hrmem
      rcases List.mem_filter.mp hrmem with ⟨_, hrp⟩
      intro hcon
      simp only [Bool.not_eq_true', decide_eq_false_iff_not] at hrp
      exact hrp hcon
    · intro o ho hone
      rw [hms]
      constructor
      · intro hmem
        rcases List.mem_append.mp hmem with h | h
        · rcases (mem_closeScMsgs s cid o.wsid Msg.selfclose).mp h with
            ⟨_, r, hrs, hro, o2, ho2, hor2, _, hw2⟩
          have : o2 = o := List.inj_on_of_nodup_map hnd ho2 ho hw2
          subst this
          exact ⟨r, hrs, hro, hor2⟩
        · rcases List.mem_append.mp h with h | h
          · rcases hoc : c.owner with _ | ow <;> rw [hoc] at h
            · simp at h
            · simp only [List.mem_singleton, Prod.mk.injEq] at h
              exact absurd h.2 (by simp)
          · rcases (updateclients_mem _ _ _ h).1 with ⟨cl, h2⟩
            simp at h2
      · rintro ⟨r, hrs, hro, hor⟩
        refine List.mem_append.mpr (Or.inl ?_)
        exact (mem_closeScMsgs s cid o.wsid Msg.selfclose).mpr
          ⟨rfl, r, hrs, hro, o, ho, hor, hone, rfl⟩
    · intro o ho hone
      rw [hst]
      exact hcl1 o ho hone
    · intro ow how
      rw [hms, how]
      exact List.mem_append.mpr (Or.inr (List.mem_append.mpr (Or.inl (by simp))))
    · rw [hst]
      exact hclnone
    · intro hcon
      rw [hcr] at hcon
      simp at hcon
    · intro _
      constructor
      · intro o ho hor
        rw [hst] at ho
        rcases updateclients_sends (closeSurvivors s cid) o ho hor with ⟨cl, hmem⟩
        refine ⟨cl, ?_⟩
        rw [hms]
        exact List.mem_append.mpr (Or.inr (List.mem_append.mpr (Or.inr hmem)))
      · intro w rl cl hmem
        rw [hms] at hmem
        rcases List.mem_append.mp hmem with h | h
        · exact absurd ((mem_closeScMsgs s cid w _).mp h).1 (by simp)
        · rcases List.mem_append.mp h with h | h
          · rcases hoc : c.owner with _ | ow <;> rw [hoc] at h
            · simp at h
            · simp only [List.mem_singleton, Prod.mk.injEq] at h
              exact absurd h.2 (by simp)
          · rcases (updateclients_mem _ _ _ h).1 with ⟨cl2, h2⟩
            simp at h2

/-- The room owned by session "1" in the C6 counterexample state. -/
def c6Room : Room :=
  { rid := 0, key := some "K", owner := some "1", config := some ⟨false, false, false⟩ }

/-- The room-owning session of the C6 counterexample. -/
def c6Owner : Client :=
  { wsid := "1", clientIp := "ip1", room := some 0, connectTime := 0, lastActivity := 0 }

/-- The guest session of the C6 counterexample. -/
def c6Guest : Client :=
  { wsid := "2", clientIp := "ip2", room := some 0, owner := some "1",
    connectTime := 0, lastActivity := 0 }

/-- Owner, guest and their room, for the C6 counterexample. -/
def c6State : LobbyState :=
  { rooms := [c6Room], clients := [c6Owner, c6Guest] }

/-- C6 counterexample: when the owner disconnects, its room is destroyed and
the guest is sent `selfclose`, but the guest is NOT detached from the room —
its room reference still points at the destroyed room afterwards, so the
claim's "and is detached from the room" is false at this input. -/
theorem c6_guest_not_detached :
    (handleClose c6State "1").1.rooms = [] ∧
    (findClient (handleClose c6State "1").1 "2").map (fun x => x.room) = some (some 0) ∧
    ("2", Msg.selfclose) ∈ (handleClose c6State "1").2.msgs := by
  refine ⟨by decide, by decide, by decide⟩

/-- Witness for the amended C6 at the concrete owner/guest state. -/
theorem c6_owner_close_witness :
    (("2", Msg.selfclose) ∈ (handleClose c6State "1").2.msgs) ∧
    findClient (handleClose c6State "1").1 "2" = some c6Guest ∧
    findClient (handleClose c6State "1").1 "1" = none := by
  have h := c6_owner_close c6State "1" c6Owner (by decide) (by decide)
  refine ⟨?_, ?_, ?_⟩
  · exact (h.2.1 c6Guest (by decide) (by decide)).mpr ⟨c6Room, by decide, by decide, by decide⟩
  · exact h.2.2.1 c6Guest (by decide) (by decide)
  · exact h.2.2.2.2.1

/-! ### Claim C10 -/

theorem wsid_map_updateClient (s : LobbyState) (id : Wsid) (f : Client → Client)
    (hf : ∀ x, (f x).wsid = x.wsid) :
    (updateClient s id f).clients.map Client.wsid = s.clients.map Client.wsid := by
  show (s.clients.map (fun c => if c.wsid = id then f c else c)).map Client.wsid = _
  rw [List.map_map]
  apply List.map_congr_left
  intro a _
  by_cases h : a.wsid = id <;> simp [Function.comp, h, hf]

theorem mem_updateClient_self (s : LobbyState) (id : Wsid) (c : Client) (f : Client → Client)
    (hc : c ∈ s.clients) (hw : c.wsid = id) : f c ∈ (updateClient s id f).clients :=
  List.mem_map.mpr ⟨c, hc, by rw [if_pos hw]⟩

/-- C10: an `enter` whose key matches an existing room sets the caller's room
reference and clears its status before the admission checks run, so when the
call fails with `enterroomfailed` (the claim branch not taken and the room
unconfigured, or its game started without observation enabled and ready) the
failed entrant still ends with its room reference pointing at the room while
its `ownerRef` stays null; it is therefore counted in that room's live member
count, and the lobby-only broadcasts of this very call (and any later ones
computed on this state) skip it — it receives neither `updaterooms` nor
`updateclients` despite never having been admitted. -/
theorem c10_enter_failed_frame (s : LobbyState) (cid : Wsid) (c : Client)
    (key nickname : Option String) (avatar : String) (config : Option GameConfig)
    (mode : Option String) (room : Room) (ow : Wsid) (o : Client)
    (hc : findClient s cid = some c) (hro : c.owner = none) (hsm : c.servermode = false)
    (hnd : (s.clients.map Client.wsid).Nodup)
    (hfind : s.rooms.find? (fun r => decide (r.key = key)) = some room)
    (hown : room.owner = some ow) (hne : ¬(ow = cid)) (how : findClient s ow = some o)
    (hncl : claimCond room o config mode = false)
    (hfail : enterFailCond room = true) :
    ((cid, Msg.enterroomfailed) ∈ (msg_enter s cid key nickname avatar config mode).2.msgs) ∧
    ((findClient (msg_enter s cid key nickname avatar config mode).1 cid).map
        (fun x => (x.room, x.owner, x.status)) = some (some room.rid, none, none)) ∧
    (0 < countMembers (msg_enter s cid key nickname avatar config mode).1 room.rid) ∧
    (∀ rl cl, (cid, Msg.updaterooms rl cl) ∉
        (msg_enter s cid key nickname avatar config mode).2.msgs) ∧
    (∀ cl, (cid, Msg.updateclients cl) ∉
        (msg_enter s cid key nickname avatar config mode).2.msgs) := by
  have hf1 : ∀ x : Client,
      ((fun (x : Client) => { x with nickname := getNickname nickname, avatar := avatar }) x).wsid
        = x.wsid := fun _ => rfl
  have hf2 : ∀ x : Client,
      ((fun (x : Client) => { x with room := some room.rid, status := none }) x).wsid = x.wsid :=
    fun _ => rfl
  have hfow : findClient (updateClient (updateClient s cid
      (fun x => { x with nickname := getNickname nickname, avatar := avatar })) cid
      (fun x => { x with room := some room.rid, status := none })) ow = some o := by
    rw [findClient_updateClient_ne _ cid ow _ hne hf2,
      findClient_updateClient_ne _ cid ow _ hne hf1, how]
  have hred : msg_enter s cid key nickname avatar config mode =
      ((updaterooms (updateClient (updateClient s cid
          (fun x => { x with nickname := getNickname nickname, avatar := avatar })) cid
          (fun x => { x with room := some room.rid, status := none }))).1,
        { msgs := (cid, Msg.enterroomfailed) ::
            (updaterooms (updateClient (updateClient s cid
              (fun x => { x with nickname := getNickname nickname, avatar := avatar })) cid
              (fun x => { x with room := some room.rid, status := none }))).2 }) := by
    simp only [msg_enter, hc, updateClient_rooms, hfind, hown, hfow, hncl, hfail,
      Bool.false_eq_true, if_false, if_true]
  have hcmem : c ∈ s.clients := List.mem_of_find?_eq_some hc
  have hcw : c.wsid = cid := by
    have := List.find?_some hc
    simpa using this
  refine ⟨?_, ?_, ?_, ?_, ?_⟩
  · rw [hred]
    simp
  · rw [hred]
    simp only [findClient_updaterooms]
    rw [findClient_updateClient_self _ cid _ hf2, findClient_updateClient_self _ cid _ hf1, hc]
    simp [hro]
  · rw [hred]
    show 0 < countIn (updaterooms _).1.clients room.rid
    rw [updaterooms_clients]
    apply List.length_pos_iff_exists_mem.mpr
    refine ⟨{ c with nickname := getNickname nickname, avatar := avatar, room := some room.rid, status := none }, ?_⟩
    apply List.mem_filter.mpr
    constructor
    · exact mem_updateClient_self _ cid _ _
        (mem_updateClient_self _ cid c _ hcmem hcw) hcw
    · simp [hsm]
  · intro rl cl hmem
    rw [hred] at hmem
    rcases List.mem_cons.mp hmem with h | h
    · simp at h
    · rcases updaterooms_mem_updaterooms _ _ _ _ h with ⟨c2, hc2mem, hc2w, hc2room⟩
      have hnd2 : ((updateClient (updateClient s cid
          (fun x => { x with nickname := getNickname nickname, avatar := avatar })) cid
          (fun x => { x with room := some room.rid, status := none })).clients.map
            Client.wsid).Nodup := by
        rw [wsid_map_updateClient _ cid _ hf2, wsid_map_updateClient _ cid _ hf1]
        exact hnd
      have hcmem2 : ({ c with nickname := getNickname nickname, avatar := avatar, room := some room.rid, status := none } : Client) ∈
          (updateClient (updateClient s cid
            (fun x => { x with nickname := getNickname nickname, avatar := avatar })) cid
            (fun x => { x with room := some room.rid, status := none })).clients :=
        mem_updateClient_self _ cid _ _
          (mem_updateClient_self _ cid c _ hcmem hcw) hcw
      have hceq : c2 = { c with nickname := getNickname nickname, avatar := avatar, room := some room.rid, status := none } :=
        List.inj_on_of_nodup_map hnd2 hc2mem hcmem2 (by rw [hc2w, hcw])
      rw [hceq] at hc2room
      simp at hc2room
  · intro cl hmem
    rw [hred] at hmem
    rcases List.mem_cons.mp hmem with h | h
    · simp at h
    · rcases updaterooms_msgs_shape _ _ _ h with h2 | ⟨rl2, cl2, h2⟩ <;> simp at h2

/-- The failed entrant of the C10 witness. -/
def c10Caller : Client :=
  { wsid := "1", clientIp := "ip1", connectTime := 0, lastActivity := 0 }

/-- The room owner of the C10 witness. -/
def c10RoomOwner : Client :=
  { wsid := "9", clientIp := "ip9", room := some 0, connectTime := 0, lastActivity := 0 }

/-- A room whose game has started without observation, for the C10 witness. -/
def c10Room : Room :=
  { rid := 0, key := some "K", owner := some "9", config := some ⟨true, false, false⟩ }

/-- The C10 witness state. -/
def c10State : LobbyState :=
  { rooms := [c10Room], clients := [c10Caller, c10RoomOwner] }

/-- Witness for C10: entering a started game without observation fails with
`enterroomfailed`, yet leaves the entrant pointing at the room, unowned, and
counted among its live members. -/
theorem c10_enter_failed_frame_witness :
    (("1", Msg.enterroomfailed) ∈
      (msg_enter c10State "1" (some "K") (some "Eve") "av" none none).2.msgs) ∧
    ((findClient (msg_enter c10State "1" (some "K") (some "Eve") "av" none none).1 "1").map
        (fun x => (x.room, x.owner, x.status)) = some (some 0, none, none)) ∧
    (0 < countMembers (msg_enter c10State "1" (some "K") (some "Eve") "av" none none).1 0) := by
  have h := c10_enter_failed_frame c10State "1" c10Caller (some "K") (some "Eve") "av"
    none none c10Room "9" c10RoomOwner (by decide) (by decide) (by decide) (by decide)
    (by decide) (by decide) (by decide) (by decide) (by decide) (by decide)
  exact ⟨h.1, h.2.1, h.2.2.1⟩

/-! ### Claim C7 -/

theorem room_eta_tmp (r : Room) (n : Nat) (h : r.tmpNum = some n) :
    ({ r with tmpNum := some n } : Room) = r := by
  obtain ⟨rid, key, owner, config, sm, tm⟩ := r
  rw [show tm = some n from h]

theorem countIn_cons (c : Client) (cs : List Client) (rid : Nat) :
    countIn (c :: cs) rid =
      (if c.room = some rid ∧ c.servermode = false then 1 else 0) + countIn cs rid := by
  unfold countIn
  rw [List.filter_cons]
  have hb : ((decide (c.room = some rid) && !c.servermode) = true) ↔
      (c.room = some rid ∧ c.servermode = false) := by
    simp [Bool.and_eq_true, Bool.not_eq_true']
  by_cases h : c.room = some rid ∧ c.servermode = false
  · rw [if_pos (hb.mpr h), if_pos h, List.length_cons]
    omega
  · rw [if_neg (fun hh => h (hb.mp hh)), if_neg h, Nat.zero_add]

theorem foldl_numStep (cs : List Client) :
    ∀ rooms : List Room, (∀ r ∈ rooms, r.tmpNum.isSome) →
      cs.foldl numStep rooms =
        rooms.map (fun r => { r with tmpNum := some (r.tmpNum.getD 0 + countIn cs r.rid) }) := by
  induction cs with
  | nil =>
    intro rooms hso
    simp only [List.foldl_nil]
    symm
    have hpt : ∀ r ∈ rooms,
        (fun r => { r with tmpNum := some (r.tmpNum.getD 0 + countIn [] r.rid) }) r = id r := by
      intro r hr
      rcases Option.isSome_iff_exists.mp (hso r hr) with ⟨n, hn⟩
      simp only [countIn, List.filter_nil, List.length_nil, Nat.add_zero, id, hn,
        Option.getD_some]
      exact room_eta_tmp r n hn
    rw [List.map_congr_left hpt, List.map_id]
  | cons c cs ih =>
    intro rooms hso
    rw [List.foldl_cons]
    have hso2 : ∀ r ∈ numStep rooms c, r.tmpNum.isSome := by
      intro r hr
      unfold numStep at hr
      rcases hcr : c.room with _ | rid0 <;> rw [hcr] at hr <;> dsimp only at hr
      · exact hso r hr
      · by_cases hsm : c.servermode
        · rw [if_pos hsm] at hr
          exact hso r hr
        · rw [if_neg hsm] at hr
          unfold bumpRoom at hr
          rcases List.mem_map.mp hr with ⟨r0, hr0, he⟩
          by_cases hrid : r0.rid = rid0
          · rw [if_pos hrid] at he
            rw [← he]
            rfl
          · rw [if_neg hrid] at he
            rw [← he]
            exact hso r0 hr0
    rw [ih (numStep rooms c) hso2]
    unfold numStep
    rcases hcr : c.room with _ | rid0 <;> dsimp only
    · apply List.map_congr_left
      intro r _
      rw [countIn_cons, if_neg (by simp [hcr]), Nat.zero_add]
    · by_cases hsm : c.servermode
      · rw [if_pos hsm]
        apply List.map_congr_left
        intro r _
        rw [countIn_cons, if_neg (by simp [hsm]), Nat.zero_add]
      · rw [if_neg hsm]
        unfold bumpRoom
        rw [List.map_map]
        apply List.map_congr_left
        intro r _
        simp only [Function.comp]
        by_cases hrid : r.rid = rid0
        · rw [if_pos hrid, countIn_cons,
            if_pos ⟨by rw [hcr, hrid], by simpa using hsm⟩]
          simp only [Option.getD_some]
          have harith : r.tmpNum.getD 0 + 1 + countIn cs r.rid =
              r.tmpNum.getD 0 + (1 + countIn cs r.rid) := by omega
          rw [harith]
        · rw [if_neg hrid, countIn_cons,
            if_neg (by simp [hcr]; intro he; exact absurd he.symm hrid), Nat.zero_add]

theorem roomsWithNums_eq (s : LobbyState) :
    roomsWithNums s =
      s.rooms.map (fun r => { r with tmpNum := some (countMembers s r.rid) }) := by
  unfold roomsWithNums
  rw [foldl_numStep s.clients (zeroNums s.rooms) ?_]
  · unfold zeroNums
    rw [List.map_map]
    apply List.map_congr_left
    intro r _
    simp only [Function.comp, Option.getD_some, Nat.zero_add]
    rfl
  · intro r hr
    unfold zeroNums at hr
    rcases List.mem_map.mp hr with ⟨r0, _, he⟩
    rw [← he]
    rfl

theorem setItem_length (items : List RoomItem) (i : Nat) (x : RoomItem)
    (h : items.length ≤ i) : (setItem items i x).length = i + 1 := by
  unfold setItem
  rw [if_neg (by omega)]
  simp only [List.length_append, List.length_replicate, List.length_cons, List.length_nil]
  omega

theorem setItem_get_self (items : List RoomItem) (i : Nat) (x : RoomItem)
    (h : items.length ≤ i) : (setItem items i x)[i]? = some x := by
  unfold setItem
  rw [if_neg (by omega), List.append_assoc]
  rw [List.getElem?_append_right h, List.getElem?_append_right (by simp)]
  simp

theorem setItem_get_stable (items : List RoomItem) (i : Nat) (x : RoomItem)
    (h : items.length ≤ i) (k : Nat) (y : RoomItem) (hk : items[k]? = some y) :
    (setItem items i x)[k]? = some y := by
  unfold setItem
  rw [if_neg (by omega), List.append_assoc]
  have hklt : k < items.length := (List.getElem?_eq_some_iff.mp hk).1
  rw [List.getElem?_append_left hklt]
  exact hk

theorem renderAux_stable (s : LobbyState) (rs : List Room) :
    ∀ (i : Nat) (items : List RoomItem) (msgs : List (Wsid × Msg)) (k : Nat) (x : RoomItem),
      items.length ≤ i → items[k]? = some x →
      (renderAux s i rs (items, msgs)).1[k]? = some x := by
  induction rs with
  | nil =>
    intro i items msgs k x _ hx
    simpa using hx
  | cons r rest ih =>
    intro i items msgs k x hlen hx
    have hklt : k < items.length := (List.getElem?_eq_some_iff.mp hx).1
    simp only [renderAux]
    by_cases hsm : r.servermode
    · rw [if_pos hsm]
      exact ih (i + 1) _ msgs k x (le_of_eq (setItem_length items i _ hlen))
        (setItem_get_stable items i _ hlen k x hx)
    · rw [if_neg hsm]
      rcases hro : r.owner with _ | ow <;> rcases hrc : r.config with _ | cfg <;> dsimp only
      · exact ih (i + 1) items msgs k x (by omega) hx
      · exact ih (i + 1) items msgs k x (by omega) hx
      · exact ih (i + 1) items msgs k x (by omega) hx
      · refine ih (i + 1) _ _ k x (by simp; omega) ?_
        rw [List.getElem?_append_left hklt]
        exact hx

theorem renderAux_mem (s : LobbyState) (rs : List Room) (i : Nat)
    (items : List RoomItem) (msgs : List (Wsid × Msg)) (x : RoomItem)
    (hlen : items.length ≤ i) (hx : x ∈ items) :
    x ∈ (renderAux s i rs (items, msgs)).1 := by
  rcases List.mem_iff_getElem?.mp hx with ⟨k, hk⟩
  exact List.mem_iff_getElem?.mpr ⟨k, renderAux_stable s rs i items msgs k x hlen hk⟩

theorem renderAux_server (s : LobbyState) (rs : List Room) :
    ∀ (i : Nat) (items : List RoomItem) (msgs : List (Wsid × Msg)) (j : Nat) (r : Room),
      items.length ≤ i → rs[j]? = some r → r.servermode = true →
      (renderAux s i rs (items, msgs)).1[i + j]? = some RoomItem.server := by
  induction rs with
  | nil =>
    intro i items msgs j r _ hj _
    simp at hj
  | cons r0 rest ih =>
    intro i items msgs j r hlen hj hsm
    cases j with
    | zero =>
      obtain rfl : r0 = r := by simpa using hj
      simp only [renderAux]
      rw [if_pos hsm, Nat.add_zero]
      exact renderAux_stable s rest (i + 1) _ msgs i RoomItem.server
        (le_of_eq (setItem_length items i _ hlen)) (setItem_get_self items i _ hlen)
    | succ j' =>
      simp only [List.getElem?_cons_succ] at hj
      have harith : i + (j' + 1) = (i + 1) + j' := by omega
      simp only [renderAux]
      rw [harith]
      by_cases hsm0 : r0.servermode
      · rw [if_pos hsm0]
        exact ih (i + 1) _ msgs j' r (le_of_eq (setItem_length items i _ hlen)) hj hsm
      · rw [if_neg hsm0]
        rcases hro : r0.owner with _ | ow <;> rcases hrc : r0.config with _ | cfg <;> dsimp only
        · exact ih (i + 1) items msgs j' r (by omega) hj hsm
        · exact ih (i + 1) items msgs j' r (by omega) hj hsm
        · exact ih (i + 1) items msgs j' r (by omega) hj hsm
        · exact ih (i + 1) _ _ j' r (by simp; omega) hj hsm

theorem renderAux_entry (s : LobbyState) (rs : List Room) :
    ∀ (i : Nat) (items : List RoomItem) (msgs : List (Wsid × Msg)) (j : Nat) (r : Room)
      (ow : Wsid) (cfg : GameConfig), items.length ≤ i → rs[j]? = some r →
      r.servermode = false → r.owner = some ow → r.config = some cfg →
      RoomItem.entry (ownerNick s ow) (ownerAvatar s ow) cfg (r.tmpNum.getD 0) r.key ∈
        (renderAux s i rs (items, msgs)).1 := by
  induction rs with
  | nil =>
    intro i items msgs j r ow cfg _ hj _ _ _
    simp at hj
  | cons r0 rest ih =>
    intro i items msgs j r ow cfg hlen hj hsm hro hrc
    cases j with
    | zero =>
      obtain rfl : r0 = r := by simpa using hj
      simp only [renderAux]
      rw [if_neg (by simp [hsm]), hro, hrc]
      dsimp only
      refine renderAux_mem s rest (i + 1) _ _ _ (by simp; omega) ?_
      exact List.mem_append.mpr (Or.inr (by simp))
    | succ j' =>
      simp only [List.getElem?_cons_succ] at hj
      simp only [renderAux]
      by_cases hsm0 : r0.servermode
      · rw [if_pos hsm0]
        exact ih (i + 1) _ msgs j' r ow cfg (le_of_eq (setItem_length items i _ hlen))
          hj hsm hro hrc
      · rw [if_neg hsm0]
        rcases hro0 : r0.owner with _ | ow0 <;> rcases hrc0 : r0.config with _ | cfg0 <;>
          dsimp only
        · exact ih (i + 1) items msgs j' r ow cfg (by omega) hj hsm hro hrc
        · exact ih (i + 1) items msgs j' r ow cfg (by omega) hj hsm hro hrc
        · exact ih (i + 1) items msgs j' r ow cfg (by omega) hj hsm hro hrc
        · exact ih (i + 1) _ _ j' r ow cfg (by simp; omega) hj hsm hro hrc

theorem renderAux_sound (s : LobbyState) (rs : List Room) :
    ∀ (i : Nat) (items : List RoomItem) (msgs : List (Wsid × Msg)) (x : RoomItem),
      items.length ≤ i →
      x ∈ (renderAux s i rs (items, msgs)).1 →
      x ∈ items ∨ x = RoomItem.hole ∨ x = RoomItem.server ∨
        ∃ r, r ∈ rs ∧ r.servermode = false ∧ ∃ ow, r.owner = some ow ∧
          ∃ cfg, r.config = some cfg ∧
            x = RoomItem.entry (ownerNick s ow) (ownerAvatar s ow) cfg
              (r.tmpNum.getD 0) r.key := by
  induction rs with
  | nil =>
    intro i items msgs x _ hx
    exact Or.inl (by simpa using hx)
  | cons r0 rest ih =>
    intro i items msgs x hlen hx
    have hpush : ∀ (q : Prop), (∃ r, r ∈ rest ∧ r.servermode = false ∧ ∃ ow, r.owner = some ow ∧
        ∃ cfg, r.config = some cfg ∧
          x = RoomItem.entry (ownerNick s ow) (ownerAvatar s ow) cfg (r.tmpNum.getD 0) r.key) →
        ∃ r, r ∈ r0 :: rest ∧ r.servermode = false ∧ ∃ ow, r.owner = some ow ∧
        ∃ cfg, r.config = some cfg ∧
          x = RoomItem.entry (ownerNick s ow) (ownerAvatar s ow) cfg (r.tmpNum.getD 0) r.key := by
      rintro _ ⟨r, hr, h1, h2⟩
      exact ⟨r, List.mem_cons_of_mem r0 hr, h1, h2⟩
    simp only [renderAux] at hx
    by_cases hsm0 : r0.servermode
    · rw [if_pos hsm0] at hx
      rcases ih (i + 1) _ _ x (le_of_eq (setItem_length items i _ hlen)) hx with h | h | h | h
      · unfold setItem at h
        rw [if_neg (by omega)] at h
        rcases List.mem_append.mp h with h2 | h2
        · rcases List.mem_append.mp h2 with h3 | h3
          · exact Or.inl h3
          · exact Or.inr (Or.inl (List.eq_of_mem_replicate h3))
        · exact Or.inr (Or.inr (Or.inl (by simpa using h2)))
      · exact Or.inr (Or.inl h)
      · exact Or.inr (Or.inr (Or.inl h))
      · exact Or.inr (Or.inr (Or.inr (hpush True h)))
    · rw [if_neg hsm0] at hx
      rcases hro0 : r0.owner with _ | ow0 <;> rcases hrc0 : r0.config with _ | cfg0 <;>
        rw [hro0, hrc0] at hx <;> dsimp only at hx
      · rcases ih (i + 1) items msgs x (by omega) hx with h | h
        · exact Or.inl h
        · rcases h with h | h | h
          · exact Or.inr (Or.inl h)
          · exact Or.inr (Or.inr (Or.inl h))
          · exact Or.inr (Or.inr (Or.inr (hpush True h)))
      · rcases ih (i + 1) items msgs x (by omega) hx with h | h
        · exact Or.inl h
        · rcases h with h | h | h
          · exact Or.inr (Or.inl h)
          · exact Or.inr (Or.inr (Or.inl h))
          · exact Or.inr (Or.inr (Or.inr (hpush True h)))
      · rcases ih (i + 1) items msgs x (by omega) hx with h | h
        · exact Or.inl h
        · rcases h with h | h | h
          · exact Or.inr (Or.inl h)
          · exact Or.inr (Or.inr (Or.inl h))
          · exact Or.inr (Or.inr (Or.inr (hpush True h)))
      · rcases ih (i + 1) _ _ x (by simp; omega) hx with h | h | h | h
        · rcases List.mem_append.mp h with h2 | h2
          · exact Or.inl h2
          · refine Or.inr (Or.inr (Or.inr ⟨r0, List.mem_cons_self r0 rest, by simpa using hsm0,
              ow0, hro0, cfg0, hrc0, by simpa using h2⟩))
        · exact Or.inr (Or.inl h)
        · exact Or.inr (Or.inr (Or.inl h))
        · exact Or.inr (Or.inr (Or.inr (hpush True h)))

theorem renderAux_congr (s s2 : LobbyState) (hcl : s.clients = s2.clients) (rs : List Room) :
    ∀ i acc, renderAux s i rs acc = renderAux s2 i rs acc := by
  have hnick : ∀ ow, ownerNick s ow = ownerNick s2 ow := by
    intro ow
    unfold ownerNick findClient
    rw [hcl]
  have hav : ∀ ow, ownerAvatar s ow = ownerAvatar s2 ow := by
    intro ow
    unfold ownerAvatar findClient
    rw [hcl]
  induction rs with
  | nil =>
    intro i acc
    rfl
  | cons r rest ih =>
    intro i acc
    obtain ⟨items, msgs⟩ := acc
    simp only [renderAux]
    by_cases hsm : r.servermode
    · rw [if_pos hsm, if_pos hsm]
      exact ih _ _
    · rw [if_neg hsm, if_neg hsm]
      rcases hro : r.owner with _ | ow <;> rcases hrc : r.config with _ | cfg <;> dsimp only
      · exact ih _ _
      · exact ih _ _
      · exact ih _ _
      · rw [hnick ow, hav ow]
        exact ih _ _

/-- C7: the room-list snapshot renders each servermode room at its own index
as the literal marker `"server"` carrying no owner details (in particular
every servermode room with no active handoff is so rendered); every other
(non-servermode) room is listed as the tuple
`[ownerNickname, ownerAvatar, config, liveMemberCount, key]` exactly when it
has both an owner and a published config — every listed tuple comes from such
a room — where `liveMemberCount` counts the sessions whose room reference is
that room and which are not themselves servermode; and computing the snapshot
twice without intervening mutation yields identical output. -/
theorem c7_roomlist (s : LobbyState) :
    (∀ (i : Nat) (r : Room), s.rooms[i]? = some r → r.servermode = true →
      (getroomlistStep s).1[i]? = some RoomItem.server) ∧
    (∀ (i : Nat) (r : Room) (ow : Wsid) (cfg : GameConfig), s.rooms[i]? = some r →
      r.servermode = false → r.owner = some ow → r.config = some cfg →
      RoomItem.entry (ownerNick s ow) (ownerAvatar s ow) cfg (countMembers s r.rid) r.key ∈
        (getroomlistStep s).1) ∧
    (∀ (n a : String) (cfg : GameConfig) (m : Nat) (k : Option String),
      RoomItem.entry n a cfg m k ∈ (getroomlistStep s).1 →
      ∃ r, r ∈ s.rooms ∧ r.servermode = false ∧ r.config = some cfg ∧ r.key = k ∧
        m = countMembers s r.rid ∧ ∃ ow, r.owner = some ow ∧
          n = ownerNick s ow ∧ a = ownerAvatar s ow) ∧
    (getroomlistStep ((getroomlistStep s).2.2)).1 = (getroomlistStep s).1 := by
  refine ⟨?_, ?_, ?_, ?_⟩
  · intro i r hi hsm
    have hj : (roomsWithNums s)[i]? =
        some { r with tmpNum := some (countMembers s r.rid) } := by
      rw [roomsWithNums_eq, List.getElem?_map, hi]
      rfl
    have hsrv := renderAux_server s (roomsWithNums s) 0 [] [] i
      { r with tmpNum := some (countMembers s r.rid) } (by simp) hj hsm
    rw [Nat.zero_add] at hsrv
    exact hsrv
  · intro i r ow cfg hi hsm hro hrc
    have hj : (roomsWithNums s)[i]? =
        some { r with tmpNum := some (countMembers s r.rid) } := by
      rw [roomsWithNums_eq, List.getElem?_map, hi]
      rfl
    exact renderAux_entry s (roomsWithNums s) 0 [] [] i
      { r with tmpNum := some (countMembers s r.rid) } ow cfg (by simp) hj hsm hro hrc
  · intro n a cfg m k hmem
    have hsnd := renderAux_sound s (roomsWithNums s) 0 [] []
      (RoomItem.entry n a cfg m k) (by simp) hmem
    rcases hsnd with h | h | h | ⟨r', hr', hsm', ow, hro', cfg', hrc', he⟩
    · simp at h
    · simp at h
    · simp at h
    · rw [roomsWithNums_eq] at hr'
      rcases List.mem_map.mp hr' with ⟨r, hr, hre⟩
      subst hre
      simp only [RoomItem.entry.injEq] at he
      obtain ⟨hn, ha, hcfg, hm, hk⟩ := he
      refine ⟨r, hr, hsm', ?_, hk.symm, hm, ow, hro', hn, ha⟩
      rw [hcfg]
      exact hrc'
  · have h1 : roomsWithNums ((getroomlistStep s).2.2) = roomsWithNums s := by
      rw [roomsWithNums_eq, roomsWithNums_eq]
      show (s.rooms.map (fun r => { r with tmpNum := none })).map _ = _
      rw [List.map_map]
      apply List.map_congr_left
      intro r _
      rfl
    have h2 := renderAux_congr ((getroomlistStep s).2.2) s rfl (roomsWithNums s) 0 ([], [])
    show (renderAux ((getroomlistStep s).2.2) 0
        (roomsWithNums ((getroomlistStep s).2.2)) ([], [])).1 =
      (renderAux s 0 (roomsWithNums s) ([], [])).1
    rw [h1, h2]

/-- The published config of the listed room in the C7 witness state. -/
def c7Gc : GameConfig :=
  { gameStarted := false, observe := false, observeReady := false }

/-- The servermode room of the C7 witness state (rendered as the marker). -/
def c7ServerRoom : Room :=
  { rid := 0, servermode := true }

/-- The owned, configured room of the C7 witness state. -/
def c7NormalRoom : Room :=
  { rid := 1, key := some "K", owner := some "9", config := some c7Gc }

/-- The C7 witness state: a servermode room, a listed room with owner "9",
one ordinary member and one servermode session inside it (which the count
must skip). -/
def c7State : LobbyState :=
  { rooms := [c7ServerRoom, c7NormalRoom],
    clients :=
      [{ wsid := "9", clientIp := "ip9", nickname := "Nina", avatar := "A", room := some 1, connectTime := 0, lastActivity := 0 },
       { wsid := "2", clientIp := "ip2", room := some 1, connectTime := 0, lastActivity := 0 },
       { wsid := "3", clientIp := "ip3", room := some 1, servermode := true, connectTime := 0, lastActivity := 0 }] }

/-- Witness for C7 at the concrete state: the servermode room renders as the
marker at its index, the owned+configured room is listed with the
servermode-excluding member count, and the snapshot is stable under
recomputation. -/
theorem c7_roomlist_witness :
    (getroomlistStep c7State).1[0]? = some RoomItem.server ∧
    RoomItem.entry (ownerNick c7State "9") (ownerAvatar c7State "9") c7Gc
      (countMembers c7State 1) (some "K") ∈ (getroomlistStep c7State).1 ∧
    (getroomlistStep ((getroomlistStep c7State).2.2)).1 = (getroomlistStep c7State).1 := by
  refine ⟨?_, ?_, (c7_roomlist c7State).2.2.2⟩
  · exact (c7_roomlist c7State).1 0 c7ServerRoom (by decide) (by decide)
  · exact (c7_roomlist c7State).2.1 1 c7NormalRoom "9" c7Gc (by decide) (by decide)
      (by decide) (by decide)

end NonameLobby
